import Mathlib

set_option linter.unusedSectionVars false

/-! CA-GCR solver and staggered reference operator.

A shallow embedding of `lib/inv_ca_gcr.cpp` (the communication-avoiding GCR
solver `CAGCR`) and of `tests/host_reference/staggered_dslash_reference.cpp`.

Conventions of the embedding.

* Scalars are exact: the complex coefficients live in a commutative ring `K`,
  the real norms in a linearly ordered type `R`, field data in a `K`-module `V`.
  Copies between precisions are therefore exact; every field still carries its
  precision tag, which is what `checkPrecision` inspects.
* The collaborators that are not part of the translated sources (the two
  operators, the reductions, the stopping rule, the dense LU solve) are the
  fields of `Collab`.
* `int` counters are mathematical integers: the model agrees with the 32-bit
  program as long as `maxiter + Nkrylov` stays below `2^31`.
* Timers, flop counters and the accumulated `secs`/`gflops` are not modelled.
* Every run carries a ghost `trace` recording operator applications, calls of
  `create`, outer iterations and warnings, in program order.
-/

namespace quda

/-! ## Enumerations -/

/-- The precision tags of `enum_quda.h` (values 2, 4, 8 bytes). -/
inductive QudaPrecision where
  | QUDA_HALF_PRECISION
  | QUDA_SINGLE_PRECISION
  | QUDA_DOUBLE_PRECISION
deriving DecidableEq, Repr

/-- The source-preservation flag of `enum_quda.h`. -/
inductive QudaPreserveSource where
  | QUDA_PRESERVE_SOURCE_NO
  | QUDA_PRESERVE_SOURCE_YES
deriving DecidableEq, Repr

/-- The verbosity levels of `enum_quda.h`, in increasing order. -/
inductive QudaVerbosity where
  | QUDA_SILENT
  | QUDA_SUMMARIZE
  | QUDA_VERBOSE
deriving DecidableEq, Repr

/-- The numeric value of a verbosity level (its position in the C enum). -/
def QudaVerbosity.toNat : QudaVerbosity → Nat
  | .QUDA_SILENT => 0
  | .QUDA_SUMMARIZE => 1
  | .QUDA_VERBOSE => 2

/-- Modelled from the spec: the initial-guess flag is declared in a header that is
not among the sources; the solver compares it against `NO` and against `YES`
only, the third constructor stands for any other value. -/
inductive QudaUseInitGuess where
  | QUDA_USE_INIT_GUESS_NO
  | QUDA_USE_INIT_GUESS_YES
  | QUDA_USE_INIT_GUESS_INVALID
deriving DecidableEq, Repr

/-- Modelled from the spec: the null-vector flag is declared in a header that is
not among the sources; the solver compares it against `NO` only. -/
inductive QudaComputeNullVector where
  | QUDA_COMPUTE_NULL_VECTOR_NO
  | QUDA_COMPUTE_NULL_VECTOR_YES
  | QUDA_COMPUTE_NULL_VECTOR_INVALID
deriving DecidableEq, Repr

/-- Fatal outcomes of a solver call. -/
inductive QudaError where
  /-- The `errorQuda("Precision mismatch ...")` of `operator()` and of `checkPrecision`. -/
  | precisionMismatch
  /-- An array allocation in `create` with a negative element count. -/
  | badAlloc
deriving DecidableEq, Repr

/-- The warnings `operator()` can issue through `warningQuda`. -/
inductive Warning where
  | zeroSource
  | residualIncrease
  | tooManyIncreases
  | exceededMaxIter
deriving DecidableEq, Repr

/-- Ghost events of a run, recorded in program order. -/
inductive Event where
  /-- A call of `CAGCR::create`. -/
  | create
  /-- One application of the full-precision operator `mat`. -/
  | mat
  /-- One application of the reduced-precision operator `matSloppy`. -/
  | matSloppy
  /-- Entry into the body of the outer `while` loop, with the values of
  `resIncrease` and `resIncreaseTotal` at that moment. -/
  | outerIteration (resIncrease resIncreaseTotal : Int)
  /-- A `warningQuda`. -/
  | warning (w : Warning)
deriving DecidableEq, Repr

/-! ## Fields and collaborators -/

/-- A lattice field: a precision tag and the data. -/
structure ColorSpinorField (V : Type) where
  precision : QudaPrecision
  v : V

instance {V : Type} [Zero V] : Inhabited (ColorSpinorField V) :=
  ⟨⟨QudaPrecision.QUDA_DOUBLE_PRECISION, 0⟩⟩

/-- Overwrite the data of a field, keeping its precision (what `blas::copy`,
an operator application or an in-place update do to their destination). -/
def ColorSpinorField.setData {V : Type} (f : ColorSpinorField V) (w : V) : ColorSpinorField V :=
  { f with v := w }

/-- The collaborators of the solver that live outside the translated sources. -/
structure Collab (K V R : Type) where
  /-- The full-precision operator: `mat(out, in, tmp)` stores `mat in` in `out`. -/
  mat : V → V
  /-- The reduced-precision operator. -/
  matSloppy : V → V
  /-- The reduction `blas::norm2`. -/
  norm2 : V → R
  /-- The inner product of two fields computed by `blas::cDotProduct`. -/
  cDot : V → V → K
  /-- The third component of `blas::HeavyQuarkResidualNorm(x, r)`. -/
  heavyQuarkResidualNorm_z : V → V → R
  /-- The function `sqrt` on norms. -/
  sqrt : R → R
  /-- The division of norms. -/
  div : R → R → R
  /-- The collaborator `stopping(tol, b2, residual_type)`. -/
  stopping : R → R → Nat → R
  /-- The collaborator `convergence(r2, hq2, r2_tol, hq_tol)`. -/
  convergence : R → R → R → R → Bool
  /-- The dense solve `PartialPivLU<matrix>(A).solve(phi)` of the Eigen library,
  for an `N × N` matrix and a right-hand side of length `N`. -/
  luSolve : Nat → (Nat → Nat → K) → (Nat → K) → Nat → K
  /-- The bit of `residual_type` selecting the heavy-quark residual. -/
  QUDA_HEAVY_QUARK_RESIDUAL : Nat
  /-- The unspecified contents of a field created with `QUDA_NULL_FIELD_CREATE`. -/
  nullField : V

/-- The part of `SolverParam` that `CAGCR` reads or writes. -/
structure SolverParam (R : Type) where
  Nkrylov : Int
  maxiter : Int
  precision : QudaPrecision
  precision_sloppy : QudaPrecision
  use_init_guess : QudaUseInitGuess
  compute_null_vector : QudaComputeNullVector
  preserve_source : QudaPreserveSource
  compute_true_res : Bool
  sloppy_converge : Bool
  is_preconditioner : Bool
  residual_type : Nat
  tol : R
  tol_hq : R
  delta : R
  max_res_increase : Int
  max_res_increase_total : Int
  true_res : R
  true_res_hq : R
  iter : Int

/-- The members of a `CAGCR` object. `rp` and `tmp_sloppy` are null pointers
(`none`) in the uni-precision case. -/
structure CAGCR (K V R : Type) where
  param : SolverParam R
  init : Bool
  alpha : List K
  rp : Option (ColorSpinorField V)
  tmpp : Option (ColorSpinorField V)
  tmp_sloppy : Option (ColorSpinorField V)
  p : List (ColorSpinorField V)
  q : List (ColorSpinorField V)

/-- The state of a call `operator()(x, b)`: the solver object, the two borrowed
fields, the ghost trace and the fatal error, if one was raised. -/
structure Run (K V R : Type) where
  solver : CAGCR K V R
  x : ColorSpinorField V
  b : ColorSpinorField V
  trace : List Event
  error : Option QudaError

/-! ## The reduction and update layer -/

section Blas

variable {K V R : Type} [CommRing K] [AddCommGroup V] [Module K V]

/-- A C `for (int i = 0; i < n; i++)` loop over a state. -/
def forRange {σ : Type} (n : Nat) (body : Nat → σ → σ) (s : σ) : σ :=
  (List.range n).foldl (fun acc i => body i acc) s

/-- Modelled from the spec: `checkPrecision(x, b)` is declared outside the
sources. The two fields must have matching precision, which is then the
precision reported; a mismatch is the fatal precision error (`none`). -/
def checkPrecision (x b : ColorSpinorField V) : Option QudaPrecision :=
  if x.precision = b.precision then some x.precision else none

/-- Modelled from the spec: `blas::zero(x)` of the update layer, zeroing a field. -/
def blasZero (x : ColorSpinorField V) : ColorSpinorField V :=
  x.setData 0

/-- Modelled from the spec: `blas::copy(dst, src)` of the update layer; the data
of `src` is stored in `dst`, which keeps its own precision. -/
def blasCopy (dst src : ColorSpinorField V) : ColorSpinorField V :=
  dst.setData src.v

/-- Modelled from the spec: `blas::cDotProduct(out, S, T)` of the reduction layer,
all pairwise inner products of two ordered field sequences in a flat buffer in
row-major order, `out[i * |T| + j] = (S[i], T[j])`. -/
def cDotProduct (c : Collab K V R) (S T : List (ColorSpinorField V)) : List K :=
  S.flatMap fun s => T.map fun t => c.cDot s.v t.v

/-- Modelled from the spec: `blas::caxpy(a, x, y)` of the update layer, the
batched in-place linear combination `y[j] += sum_i a[i * |y| + j] * x[i]`,
accumulated source by source. -/
def caxpy (a : List K) (xs ys : List (ColorSpinorField V)) : List (ColorSpinorField V) :=
  ys.enum.map fun jy =>
    jy.2.setData
      (xs.enum.foldl (fun acc ix => acc + a.getD (ix.1 * ys.length + jy.1) 0 • ix.2.v) jy.2.v)

end Blas

/-! ## The solver object -/

section Solver

variable {K V R : Type} [CommRing K] [AddCommGroup V] [Module K V] [LinearOrder R] [Zero R]

/-- The residual field `r`: `*rp` in the mixed-precision case, an alias of
`*p[0]` otherwise (`ColorSpinorField &r = rp ? *rp : *p[0]`). -/
def CAGCR.r (s : CAGCR K V R) : ColorSpinorField V :=
  match s.rp with
  | some f => f
  | none => s.p.getD 0 default

/-- Store data in the field that `r` refers to. -/
def CAGCR.setR (s : CAGCR K V R) (w : V) : CAGCR K V R :=
  match s.rp with
  | some f => { s with rp := some (f.setData w) }
  | none => { s with p := s.p.set 0 ((s.p.getD 0 default).setData w) }

/-- The method `CAGCR::create(meta)`: on the first call it allocates the
coefficient buffer, the full-precision fields (`rp` only when the two
precisions differ), `Nkrylov` pairs of sloppy fields and the sloppy temporary.
The contents of a new field are unspecified (`QUDA_NULL_FIELD_CREATE`).
A negative element count makes the first allocation fail. -/
def CAGCR.create (c : Collab K V R) (s : CAGCR K V R) (meta : ColorSpinorField V) :
    Except QudaError (CAGCR K V R) :=
  if !s.init then
    if s.param.Nkrylov < 0 then .error QudaError.badAlloc
    else
      let n := s.param.Nkrylov.toNat
      let mixed := s.param.precision != s.param.precision_sloppy
      let full : ColorSpinorField V := ⟨meta.precision, c.nullField⟩
      let sloppy : ColorSpinorField V := ⟨s.param.precision_sloppy, c.nullField⟩
      .ok { s with
            alpha := List.replicate n 0
            rp := if mixed then some full else none
            tmpp := some full
            p := forRange n (fun i l => l.set i sloppy) (List.replicate n default)
            q := forRange n (fun i l => l.set i sloppy) (List.replicate n default)
            tmp_sloppy := if mixed then some sloppy else none
            init := true }
  else .ok s

/-- Record an event at the end of the trace. -/
def Run.log (run : Run K V R) (e : Event) : Run K V R :=
  { run with trace := run.trace ++ [e] }

/-- The call `mat(r, x, tmp)`: the image of `x` under the full operator is stored in `r`. -/
def Run.applyMat (c : Collab K V R) (run : Run K V R) : Run K V R :=
  { run with solver := run.solver.setR (c.mat run.x.v), trace := run.trace ++ [Event.mat] }

/-- The call `blas::xmyNorm(b, r)`: `r = b - r`; the value returned is `norm2(r)`
(see `Run.xmyNormValue`). -/
def Run.xmyNorm (run : Run K V R) : Run K V R :=
  { run with solver := run.solver.setR (run.b.v - run.solver.r.v) }

/-- The value returned by `blas::xmyNorm(b, r)`, read after the update of `r`. -/
def Run.xmyNormValue (c : Collab K V R) (run : Run K V R) : R :=
  c.norm2 run.solver.r.v

/-- The test `param.residual_type & QUDA_HEAVY_QUARK_RESIDUAL`. -/
def useHeavyQuarkRes (c : Collab K V R) (param : SolverParam R) : Bool :=
  (param.residual_type &&& c.QUDA_HEAVY_QUARK_RESIDUAL) != 0

/-- The expression `sqrt(blas::HeavyQuarkResidualNorm(x, r).z)`. -/
def Run.heavyQuark (c : Collab K V R) (run : Run K V R) : R :=
  c.sqrt (c.heavyQuarkResidualNorm_z run.x.v run.solver.r.v)

/-- The state of the outer loop of `operator()`: the run and the local variables. -/
structure OuterState (K V R : Type) where
  run : Run K V R
  nKrylov : Int
  b2 : R
  r2 : R
  r2_old : R
  stop : R
  heavy_quark_res : R
  use_heavy_quark_res : Bool
  maxResIncrease : Int
  maxResIncreaseTotal : Int
  resIncrease : Int
  resIncreaseTotal : Int
  total_iter : Int
  restart : Int
  l2_converge : Bool

/-- One pass of the subspace-build loop, for index `k`:
`matSloppy(*q[k], *p[k], tmpSloppy); if (k<nKrylov-1) blas::copy(*p[k+1], *q[k]);`. -/
def buildStep (c : Collab K V R) (nKrylov : Int) (k : Nat) (run : Run K V R) : Run K V R :=
  let s := run.solver
  let q1 := s.q.set k ((s.q.getD k default).setData (c.matSloppy (s.p.getD k default).v))
  let p1 :=
    if (k : Int) < nKrylov - 1 then s.p.set (k + 1) (blasCopy (s.p.getD (k + 1) default) (q1.getD k default))
    else s.p
  { run with solver := { s with p := p1, q := q1 }, trace := run.trace ++ [Event.matSloppy] }

/-- The subspace-build loop `for (int k=0; k<nKrylov; k++)`. -/
def buildSubspace (c : Collab K V R) (nKrylov : Int) (run : Run K V R) : Run K V R :=
  forRange nKrylov.toNat (buildStep c nKrylov) run

/-- The method `CAGCR::solve(psi_, p, q, b)` on its single-reduction path: one
batched reduction of `q` against `q ++ [b]`, the `N × N` matrix and right-hand
side read from the flat `N × (N+1)` buffer, the dense solve, and the copy of
the solution into the coefficient buffer. -/
def CAGCR.solve (c : Collab K V R) (s : CAGCR K V R) (b : ColorSpinorField V) : CAGCR K V R :=
  let N := s.p.length
  let Q := forRange N (fun i l => l ++ [s.q.getD i default]) [] ++ [b]
  let A_ := cDotProduct c s.q Q
  let phi : Nat → K := fun i => A_.getD (i * (N + 1) + N) 0
  let A : Nat → Nat → K := fun i j => A_.getD (i * (N + 1) + j) 0
  let psi := c.luSolve N A phi
  { s with alpha := forRange N (fun i a => a.set i (psi i)) s.alpha }

/-- The update of one outer iteration (lines 230-239): `x` receives the
combination of the `p[i]`, the coefficients are negated in place, and `p[0]`
receives the combination of the `q[i]`. -/
def updateStep (nKrylov : Int) (run : Run K V R) : Run K V R :=
  let s := run.solver
  let X := caxpy s.alpha s.p [run.x]
  let alpha1 := forRange nKrylov.toNat (fun i a => a.set i (-(a.getD i 0))) s.alpha
  let R_ := caxpy alpha1 s.q [s.p.getD 0 default]
  { run with
    x := X.getD 0 run.x
    solver := { s with alpha := alpha1, p := s.p.set 0 (R_.getD 0 (s.p.getD 0 default)) } }

/-- Lines 222-228 of the outer iteration: the subspace build followed by
`solve(alpha, p, q, *p[0])`. -/
def krylovSolve (c : Collab K V R) (st : OuterState K V R) : Run K V R :=
  let run1 := buildSubspace c st.nKrylov st.run
  { run1 with solver := run1.solver.solve c (run1.solver.p.getD 0 default) }

/-- Lines 222-244 of the outer iteration: subspace build, dense solve, update of
solution and residual, the norm of the new residual and the iteration count. -/
def krylovPhase (c : Collab K V R) (st : OuterState K V R) : OuterState K V R :=
  let run3 := updateStep st.nKrylov (krylovSolve c st)
  { st with
    run := run3
    r2 := c.norm2 (run3.solver.p.getD 0 default).v
    total_iter := st.total_iter + st.nKrylov }

/-- The residual-growth guard (lines 256-267) on the two counters: the new
values of `resIncrease` and `resIncreaseTotal`, and whether the loop is left. -/
def resGuard (r2 r2_old : R) (maxResIncrease maxResIncreaseTotal resIncrease resIncreaseTotal : Int) :
    Int × Int × Bool :=
  if r2 > r2_old then
    (resIncrease + 1, resIncreaseTotal + 1,
      decide (resIncrease + 1 > maxResIncrease ∨ resIncreaseTotal + 1 > maxResIncreaseTotal))
  else (0, resIncreaseTotal, false)

/-- Lines 248-282 of the outer iteration, whose guard `1 || ...` always holds:
the sloppy-convergence exit, the recomputation of the true residual, the
residual-growth guard and the restart. The flag tells whether a `break` was taken. -/
def reliableUpdate (c : Collab K V R) (st : OuterState K V R) : OuterState K V R × Bool :=
  if st.r2 < st.stop ∧ st.run.solver.param.sloppy_converge = true then (st, true)
  else
    let run1 := (st.run.applyMat c).xmyNorm
    let r2 := run1.xmyNormValue c
    let hq := if st.use_heavy_quark_res then run1.heavyQuark c else st.heavy_quark_res
    let g := resGuard r2 st.r2_old st.maxResIncrease st.maxResIncreaseTotal
      st.resIncrease st.resIncreaseTotal
    let run2 := if r2 > st.r2_old then run1.log (Event.warning Warning.residualIncrease) else run1
    let st1 := { st with run := run2, r2 := r2, heavy_quark_res := hq,
                         resIncrease := g.1, resIncreaseTotal := g.2.1 }
    if g.2.2 then
      ({ st1 with run := run2.log (Event.warning Warning.tooManyIncreases) }, true)
    else if !c.convergence r2 hq st.stop st.run.solver.param.tol_hq then
      let s := run2.solver
      let run3 := { run2 with solver := { s with p := s.p.set 0 (blasCopy (s.p.getD 0 default) s.r) } }
      ({ st1 with run := run3, restart := st.restart + 1, r2_old := r2,
                   l2_converge := if r2 < st.stop then true else st.l2_converge }, false)
    else ({ st1 with r2_old := r2 }, false)

/-- The body of the outer `while` loop. -/
def outerBody (c : Collab K V R) (st : OuterState K V R) : OuterState K V R × Bool :=
  reliableUpdate c (krylovPhase c st)

/-- The condition of the outer `while` loop. -/
def outerCond (c : Collab K V R) (st : OuterState K V R) : Bool :=
  !c.convergence st.r2 st.heavy_quark_res st.stop st.run.solver.param.tol_hq
    && decide (st.total_iter < st.run.solver.param.maxiter)

/-- The outer `while` loop, unrolled at most `fuel` times. Every iteration adds
`nKrylov` to `total_iter`, so `maxiter` rounds of fuel are enough when
`nKrylov` is positive (`outerLoop_fuel_succ`). -/
def outerLoop (c : Collab K V R) : Nat → OuterState K V R → OuterState K V R
  | 0, st => st
  | fuel + 1, st =>
    if outerCond c st then
      let st0 := { st with run := st.run.log (Event.outerIteration st.resIncrease st.resIncreaseTotal) }
      match outerBody c st0 with
      | (st1, true) => st1
      | (st1, false) => outerLoop c fuel st1
    else st

/-- The invariant of the outer loop behind the residual-growth guard, for
thresholds `m` (per restart) and `mt` (cumulative): the state holds these
thresholds, the counters are within them and ordered, and every outer
iteration recorded so far started with counters within them. -/
def GuardInv (m mt : Int) (st : OuterState K V R) : Prop :=
  st.maxResIncrease = m ∧ st.maxResIncreaseTotal = mt ∧ 0 ≤ m ∧
  0 ≤ st.resIncrease ∧ st.resIncrease ≤ m ∧ st.resIncreaseTotal ≤ mt ∧
  st.resIncrease ≤ st.resIncreaseTotal ∧
  ∀ i t, Event.outerIteration i t ∈ st.run.trace → i ≤ m ∧ t ≤ mt ∧ i ≤ t

/-- The class invariant of a `CAGCR` object: once `create` has run, `p` holds
`Nkrylov` fields. -/
def CAGCR.wellFormed (s : CAGCR K V R) : Prop :=
  s.init = true → s.p.length = s.param.Nkrylov.toNat

/-- The statements after the outer loop (lines 286-312): the iteration-budget
warning, the optional final true residual, the optional overwrite of the
source, and the iteration count added to `param.iter`. -/
def postLoop (c : Collab K V R) (verbosity : QudaVerbosity) (st : OuterState K V R) : Run K V R :=
  let run0 := st.run
  let run1 :=
    if st.total_iter > run0.solver.param.maxiter ∧ verbosity.toNat ≥ QudaVerbosity.QUDA_SUMMARIZE.toNat then
      run0.log (Event.warning Warning.exceededMaxIter)
    else run0
  let run2 :=
    if run1.solver.param.compute_true_res then
      let run := (run1.applyMat c).xmyNorm
      let true_res := run.xmyNormValue c
      let hq := if useHeavyQuarkRes c run.solver.param then run.heavyQuark c else 0
      let s := run.solver
      let run := { run with solver := { s with param := { s.param with
                      true_res := c.sqrt (c.div true_res st.b2), true_res_hq := hq } } }
      if run.solver.param.preserve_source = QudaPreserveSource.QUDA_PRESERVE_SOURCE_NO then
        { run with b := blasCopy run.b run.solver.r }
      else run
    else
      if run1.solver.param.preserve_source = QudaPreserveSource.QUDA_PRESERVE_SOURCE_NO then
        { run1 with b := blasCopy run1.b (run1.solver.p.getD 0 default) }
      else run1
  if !run2.solver.param.is_preconditioner then
    let s := run2.solver
    { run2 with solver := { s with param := { s.param with iter := s.param.iter + st.total_iter } } }
  else run2

/-- The code of `operator()` between `create(x)` and the outer loop (lines
159-217), for a run whose solver has been created. Either the call returns
here (zero source, left component) or the outer loop is entered in the state
given (right component). -/
def prelude (c : Collab K V R) (run : Run K V R) : Run K V R ⊕ OuterState K V R :=
  let param := run.solver.param
  let b2 := c.norm2 run.b.v
  let run1 :=
    if param.use_init_guess = QudaUseInitGuess.QUDA_USE_INIT_GUESS_YES then
      (run.applyMat c).xmyNorm
    else
      { run with solver := run.solver.setR run.b.v, x := blasZero run.x }
  let r2 :=
    if param.use_init_guess = QudaUseInitGuess.QUDA_USE_INIT_GUESS_YES then run1.xmyNormValue c
    else b2
  if b2 = 0 ∧ param.compute_null_vector = QudaComputeNullVector.QUDA_COMPUTE_NULL_VECTOR_NO then
    let run2 := run1.log (Event.warning Warning.zeroSource)
    let s := run2.solver
    .inl { run2 with x := run2.b,
                     solver := { s with param := { s.param with true_res := 0, true_res_hq := 0 } } }
  else
    let b2 := if b2 = 0 then r2 else b2
    let stop := c.stopping param.tol b2 param.residual_type
    let use_hq := useHeavyQuarkRes c param
    let hq := if use_hq then run1.heavyQuark c else 0
    let s := run1.solver
    let run2 := { run1 with solver := { s with p := s.p.set 0 (blasCopy (s.p.getD 0 default) s.r) } }
    .inr { run := run2, nKrylov := param.Nkrylov, b2 := b2, r2 := r2, r2_old := r2, stop := stop,
           heavy_quark_res := hq, use_heavy_quark_res := use_hq,
           maxResIncrease := param.max_res_increase,
           maxResIncreaseTotal := param.max_res_increase_total,
           resIncrease := 0, resIncreaseTotal := 0, total_iter := 0, restart := 0,
           l2_converge := false }

/-- The method `CAGCR::operator()(x, b)`. -/
def CAGCR.call (c : Collab K V R) (verbosity : QudaVerbosity) (s : CAGCR K V R)
    (x b : ColorSpinorField V) : Run K V R :=
  let run : Run K V R := { solver := s, x := x, b := b, trace := [], error := none }
  if checkPrecision x b ≠ some s.param.precision then
    { run with error := some QudaError.precisionMismatch }
  else if s.param.maxiter = 0 ∨ s.param.Nkrylov = 0 then
    if s.param.use_init_guess = QudaUseInitGuess.QUDA_USE_INIT_GUESS_NO then
      { run with x := blasZero x }
    else run
  else
    match s.create c x with
    | .error e => { run with trace := [Event.create], error := some e }
    | .ok s1 =>
      match prelude c { run with solver := s1, trace := [Event.create] } with
      | .inl done => done
      | .inr st => postLoop c verbosity (outerLoop c s.param.maxiter.toNat st)

end Solver


/-! ## The two ways of forming the Gram system -/

section Gram

variable {K V R : Type} [CommRing K] [AddCommGroup V] [Module K V] [LinearOrder R] [Zero R]

/-- Modelled from the spec: `blas::hDotProduct(out, S, T)` of the reduction layer,
the Hermitian block dot product, for a result known to be Hermitian: the entries
on and above the diagonal are the inner products `(S[i], T[j])`, the entries
below it are the conjugates `conj` of their mirror images; flat row-major
buffer, `out[i * |T| + j]`. -/
def hDotProduct (c : Collab K V R) (conj : K → K) (S T : List (ColorSpinorField V)) : List K :=
  (List.range S.length).flatMap fun i => (List.range T.length).map fun j =>
    if i ≤ j then c.cDot (S.getD i default).v (T.getD j default).v
    else conj (c.cDot (S.getD j default).v (T.getD i default).v)

/-- The matrix `A` and right-hand side `phi` formed by the single-reduction path
of `CAGCR::solve` (lines 76-90): one `cDotProduct` of `q` against `q ++ [b]`
into a flat `N × (N+1)` buffer, `N = p.size()`. -/
def gramSingleReduction (c : Collab K V R) (p q : List (ColorSpinorField V))
    (b : ColorSpinorField V) : (Nat → Nat → K) × (Nat → K) :=
  let N := p.length
  let Q := forRange N (fun i l => l ++ [q.getD i default]) [] ++ [b]
  let A_ := cDotProduct c q Q
  (fun i j => A_.getD (i * (N + 1) + j) 0, fun i => A_.getD (i * (N + 1) + N) 0)

/-- The matrix `A` and right-hand side `phi` formed by the two-reduction path of
`CAGCR::solve` (lines 92-107, compiled out by `#if 1`): a `cDotProduct` of `q`
against `[b]` for `phi`, and the Hermitian block product of `q` against `q`
into a flat `N × N` buffer for `A`. -/
def gramTwoReductions (c : Collab K V R) (conj : K → K) (p q : List (ColorSpinorField V))
    (b : ColorSpinorField V) : (Nat → Nat → K) × (Nat → K) :=
  let N := p.length
  let B := [b]
  let phi_ := cDotProduct c q B
  let A_ := hDotProduct c conj q q
  (fun i j => A_.getD (i * N + j) 0, fun i => phi_.getD i 0)

end Gram

/-! ## Exact-arithmetic laws of the collaborators -/

section Laws

variable {K V R : Type} [CommRing K] [AddCommGroup V] [Module K V] [LinearOrderedAddCommGroup R]

end Laws

/-! ## Counting outer iterations -/

section IterationCount

end IterationCount

/-! ## Sample data

A one-component instance over the integers, used to run the model: fields are
integers, `norm2 v = v * v`, the sloppy operator is the identity, the full
operator multiplies by `matFactor`, the dense solve returns the constant
vector `1`, and the convergence test never succeeds. -/

section Samples

/-- Sample collaborators whose full operator multiplies by `matFactor`. -/
def sampleCollab (matFactor : Int) : Collab Int Int Int where
  mat := fun v => matFactor * v
  matSloppy := fun v => v
  norm2 := fun v => v * v
  cDot := fun u v => u * v
  heavyQuarkResidualNorm_z := fun _ _ => 0
  sqrt := fun r => r
  div := fun a _ => a
  stopping := fun _ _ _ => 0
  convergence := fun _ _ _ _ => false
  luSolve := fun _ _ _ _ => 1
  QUDA_HEAVY_QUARK_RESIDUAL := 4
  nullField := 0

/-- Sample parameter block: double precision throughout, no initial guess,
source preserved, final true residual computed. -/
def sampleParam (Nkrylov maxiter max_res_increase max_res_increase_total : Int) : SolverParam Int where
  Nkrylov := Nkrylov
  maxiter := maxiter
  precision := QudaPrecision.QUDA_DOUBLE_PRECISION
  precision_sloppy := QudaPrecision.QUDA_DOUBLE_PRECISION
  use_init_guess := QudaUseInitGuess.QUDA_USE_INIT_GUESS_NO
  compute_null_vector := QudaComputeNullVector.QUDA_COMPUTE_NULL_VECTOR_NO
  preserve_source := QudaPreserveSource.QUDA_PRESERVE_SOURCE_YES
  compute_true_res := true
  sloppy_converge := false
  is_preconditioner := false
  residual_type := 1
  tol := 0
  tol_hq := 0
  delta := 0
  max_res_increase := max_res_increase
  max_res_increase_total := max_res_increase_total
  true_res := 0
  true_res_hq := 0
  iter := 0

/-- A freshly constructed solver (`init = false`, null pointers, empty vectors). -/
def sampleSolver (param : SolverParam Int) : CAGCR Int Int Int where
  param := param
  init := false
  alpha := []
  rp := none
  tmpp := none
  tmp_sloppy := none
  p := []
  q := []

/-- A double-precision sample field. -/
def sampleField (v : Int) : ColorSpinorField Int :=
  ⟨QudaPrecision.QUDA_DOUBLE_PRECISION, v⟩

/-- A single-precision sample field. -/
def sampleFieldSingle (v : Int) : ColorSpinorField Int :=
  ⟨QudaPrecision.QUDA_SINGLE_PRECISION, v⟩

/-- A sample run inside the outer loop: two directions, `p[0] = 3`. -/
def sampleRun : Run Int Int Int where
  solver := { sampleSolver (sampleParam 2 4 1 10) with
              init := true, alpha := [2, 5], p := [sampleField 3, sampleField 0],
              q := [sampleField 0, sampleField 0], tmpp := some (sampleField 0) }
  x := sampleField 7
  b := sampleField 3
  trace := [Event.create]
  error := none

/-- A sample state at the head of the outer loop, built on `sampleRun`. -/
def sampleOuter : OuterState Int Int Int where
  run := sampleRun
  nKrylov := 2
  b2 := 9
  r2 := 9
  r2_old := 9
  stop := 0
  heavy_quark_res := 0
  use_heavy_quark_res := false
  maxResIncrease := 1
  maxResIncreaseTotal := 10
  resIncrease := 0
  resIncreaseTotal := 0
  total_iter := 0
  restart := 0
  l2_converge := false

end Samples

section MoreSamples

/-- The sample parameter block with the source not preserved. -/
def sampleParamOverwrite (compute_true_res : Bool) : SolverParam Int :=
  { sampleParam 2 4 1 10 with
    preserve_source := QudaPreserveSource.QUDA_PRESERVE_SOURCE_NO
    compute_true_res := compute_true_res }

end MoreSamples

/-! ## The staggered reference operator

Host arrays (`real_t *`) are functions from the index to the value, arrays of
arrays (`real_t **`) functions of two indices. The arithmetic is exact, in a
commutative ring `K`; the `float` and `double` instances of the templates
coincide in the model. -/

section Staggered

variable {K : Type} [CommRing K]

/-- Modelled from the spec: the dslash type tested by the staggered reference
code. The header among the sources lists the two Wilson types only; the
improved (`ASQTAD`, with long links) and the pure-Laplace action are the two
values the reference code compares against. -/
inductive QudaDslashType where
  | QUDA_WILSON_DSLASH
  | QUDA_CLOVER_WILSON_DSLASH
  | QUDA_ASQTAD_DSLASH
  | QUDA_LAPLACE_DSLASH
deriving DecidableEq, Repr

/-- Modelled from the spec: the parity type, declared outside the sources:
even, odd, and a third value for anything else (a full-parity request). -/
inductive QudaParity where
  | QUDA_EVEN_PARITY
  | QUDA_ODD_PARITY
  | QUDA_INVALID_PARITY
deriving DecidableEq, Repr

/-- The integer passed as `oddBit`: zero for even, one for odd (source comment
of `staggeredDslashReference`); the invalid value is any other integer. -/
def QudaParity.toInt : QudaParity → Int
  | .QUDA_EVEN_PARITY => 0
  | .QUDA_ODD_PARITY => 1
  | .QUDA_INVALID_PARITY => -1

/-- Fatal outcomes of the host reference functions. -/
inductive HostError where
  /-- The `errorQuda` on differing spinor and gauge precision. -/
  | precisionMismatch
  /-- The `errorQuda` on a parity that is neither even nor odd. -/
  | fullParity
deriving DecidableEq, Repr

/-- A host gauge field: precision, the link arrays per direction (`Gauge_p()`)
and the ghost link arrays (`Ghost()`). -/
structure GaugeField (K : Type) where
  precision : QudaPrecision
  gauge : Nat → Nat → K
  ghost : Nat → Nat → K

/-- The globals and helpers of the host reference code that are declared
outside the translated file. -/
structure HostEnv (K : Type) where
  /-- The number of sites of one parity. -/
  Vh : Nat
  /-- The number of real components of a staggered spinor per site. -/
  stag_spinor_site_size : Nat
  /-- The helpers `gaugeLink` / `gaugeLink_mg4dir`: the link matrix for site
  `sid`, direction `dir` and parity `oddBit`, from the link arrays and the ghost
  link arrays, at neighbour distance `n`. -/
  gaugeLink : (sid dir : Nat) → (oddBit : Int) → (link ghostLink : Nat → Nat → K) → (n : Nat) → Nat → K
  /-- The helpers `spinorNeighbor_5d` / `spinorNeighbor_5d_mgpu`: the spinor of
  the neighbour at distance `dist` of site `sid` in direction `dir`. -/
  spinorNeighbor : (sid dir : Nat) → (oddBit : Int) → (spinorField : Nat → K) →
    (fwd_nbr_spinor back_nbr_spinor : Nat → Nat → K) → (dist nFace : Nat) → Nat → K
  /-- The helper `su3Mul(out, link, spinor)`: matrix times vector. -/
  su3Mul : (Nat → K) → (Nat → K) → Nat → K
  /-- The helper `su3Tmul(out, link, spinor)`: conjugate-transposed matrix times vector. -/
  su3Tmul : (Nat → K) → (Nat → K) → Nat → K
  /-- The method `exchangeGhost(parity, nFace, dagger)` of the input field, giving
  its forward and backward ghost face buffers. -/
  exchangeGhost : (Nat → K) → QudaParity → Nat → Int → (Nat → Nat → K) × (Nat → Nat → K)
  /-- The elementwise operation of the host helper `axmy(x, a, y, len)`, which
  stores `axmyOp x[i] a y[i]` in `y[i]`. -/
  axmyOp : K → K → K → K

/-- Modelled from the spec: the host helper `sum(dst, a, b, len)` in its use
`sum(&res[offset], &res[offset], g, len)`: the `len` components of `g` are
added to `res` from `offset` on. -/
def sumAt (res : Nat → K) (offset len : Nat) (g : Nat → K) : Nat → K :=
  fun i => if offset ≤ i ∧ i < offset + len then res i + g (i - offset) else res i

/-- Modelled from the spec: the host helper `sub(dst, a, b, len)` in its use
`sub(&res[offset], &res[offset], g, len)`: the `len` components of `g` are
subtracted from `res` from `offset` on. -/
def subAt (res : Nat → K) (offset len : Nat) (g : Nat → K) : Nat → K :=
  fun i => if offset ≤ i ∧ i < offset + len then res i - g (i - offset) else res i

/-- Modelled from the spec: the host helper `negx(x, len)` in its use
`negx(&res[offset], len)`: `len` components of `res` from `offset` on are
negated in place. -/
def negxAt (res : Nat → K) (offset len : Nat) : Nat → K :=
  fun i => if offset ≤ i ∧ i < offset + len then -res i else res i

/-- Modelled from the spec: the host helper `axmy(x, a, y, len)`, elementwise on
the first `len` components with the operation `axmyOp` of the environment. -/
def axmy (env : HostEnv K) (x : Nat → K) (a : K) (y : Nat → K) (len : Nat) : Nat → K :=
  fun i => if i < len then env.axmyOp (x i) a (y i) else y i

/-- The body of the loop over the eight directions in `staggeredDslashReference`,
for site `sid` and direction `dir`, acting on `res`. The long link and the
third neighbour are null pointers outside the `ASQTAD` action, where they are
not read. -/
def dirStep (env : HostEnv K) (fatlink longlink ghostFatlink ghostLonglink : Nat → Nat → K)
    (spinorField : Nat → K) (fwd_nbr_spinor back_nbr_spinor : Nat → Nat → K)
    (oddBit : Int) (dslash_type : QudaDslashType) (sid dir : Nat) (res : Nat → K) : Nat → K :=
  let offset := env.stag_spinor_site_size * sid
  let nFace := if dslash_type = QudaDslashType.QUDA_ASQTAD_DSLASH then 3 else 1
  let fatlnk := env.gaugeLink sid dir oddBit fatlink ghostFatlink 1
  let longlnk := env.gaugeLink sid dir oddBit longlink ghostLonglink 3
  let first_neighbor_spinor :=
    env.spinorNeighbor sid dir oddBit spinorField fwd_nbr_spinor back_nbr_spinor 1 nFace
  let third_neighbor_spinor :=
    env.spinorNeighbor sid dir oddBit spinorField fwd_nbr_spinor back_nbr_spinor 3 nFace
  if dir % 2 = 0 then
    let res1 := sumAt res offset env.stag_spinor_site_size (env.su3Mul fatlnk first_neighbor_spinor)
    if dslash_type = QudaDslashType.QUDA_ASQTAD_DSLASH then
      sumAt res1 offset env.stag_spinor_site_size (env.su3Mul longlnk third_neighbor_spinor)
    else res1
  else
    let gaugedSpinor := env.su3Tmul fatlnk first_neighbor_spinor
    let res1 :=
      if dslash_type = QudaDslashType.QUDA_LAPLACE_DSLASH then
        sumAt res offset env.stag_spinor_site_size gaugedSpinor
      else subAt res offset env.stag_spinor_site_size gaugedSpinor
    if dslash_type = QudaDslashType.QUDA_ASQTAD_DSLASH then
      subAt res1 offset env.stag_spinor_site_size (env.su3Tmul longlnk third_neighbor_spinor)
    else res1

/-- The body of the loop over the sites in `staggeredDslashReference`: the
eight directions, then the negation of the site in dagger mode. -/
def siteStep (env : HostEnv K) (fatlink longlink ghostFatlink ghostLonglink : Nat → Nat → K)
    (spinorField : Nat → K) (fwd_nbr_spinor back_nbr_spinor : Nat → Nat → K)
    (oddBit daggerBit : Int) (dslash_type : QudaDslashType) (sid : Nat) (res : Nat → K) : Nat → K :=
  let res1 := forRange 8 (dirStep env fatlink longlink ghostFatlink ghostLonglink spinorField
    fwd_nbr_spinor back_nbr_spinor oddBit dslash_type sid) res
  if daggerBit ≠ 0 then negxAt res1 (env.stag_spinor_site_size * sid) env.stag_spinor_site_size
  else res1

/-- The function `staggeredDslashReference`: `res` is zeroed on its
`Vh * stag_spinor_site_size` components, then every site accumulates its eight
directions. -/
def staggeredDslashReference (env : HostEnv K) (res : Nat → K)
    (fatlink longlink ghostFatlink ghostLonglink : Nat → Nat → K)
    (spinorField : Nat → K) (fwd_nbr_spinor back_nbr_spinor : Nat → Nat → K)
    (oddBit daggerBit : Int) (dslash_type : QudaDslashType) : Nat → K :=
  let res0 := forRange (env.Vh * env.stag_spinor_site_size) (fun i r => Function.update r i 0) res
  forRange env.Vh (siteStep env fatlink longlink ghostFatlink ghostLonglink spinorField
    fwd_nbr_spinor back_nbr_spinor oddBit daggerBit dslash_type) res0

/-- The function `staggeredDslash`: precision and parity checks, ghost exchange
for the other parity, and the reference stencil on the data of `out` for a
double- or single-precision input (no other precision is handled). -/
def staggeredDslash (env : HostEnv K) (out : ColorSpinorField (Nat → K))
    (fat_link long_link : GaugeField K) (inp : ColorSpinorField (Nat → K))
    (oddBit daggerBit : Int) (dslash_type : QudaDslashType) :
    Except HostError (ColorSpinorField (Nat → K)) :=
  if inp.precision ≠ fat_link.precision then .error HostError.precisionMismatch
  else
    let other : Option QudaParity :=
      if oddBit = QudaParity.QUDA_EVEN_PARITY.toInt then some QudaParity.QUDA_ODD_PARITY
      else if oddBit = QudaParity.QUDA_ODD_PARITY.toInt then some QudaParity.QUDA_EVEN_PARITY
      else none
    match other with
    | none => .error HostError.fullParity
    | some otherparity =>
      let nFace := if dslash_type = QudaDslashType.QUDA_ASQTAD_DSLASH then 3 else 1
      let nbr := env.exchangeGhost inp.v otherparity nFace daggerBit
      if inp.precision = QudaPrecision.QUDA_DOUBLE_PRECISION
          ∨ inp.precision = QudaPrecision.QUDA_SINGLE_PRECISION then
        .ok (out.setData (staggeredDslashReference env out.v fat_link.gauge long_link.gauge
          fat_link.ghost long_link.ghost inp.v nbr.1 nbr.2 oddBit daggerBit dslash_type))
      else .ok out

/-- The parity opposite to an even or odd parity, as selected at the head of
`staggeredMatDagMat`; no parity for anything else. -/
def otherParity (parity : QudaParity) : Option QudaParity :=
  if parity = QudaParity.QUDA_EVEN_PARITY then some QudaParity.QUDA_ODD_PARITY
  else if parity = QudaParity.QUDA_ODD_PARITY then some QudaParity.QUDA_EVEN_PARITY
  else none

/-- The function `staggeredMatDagMat`; the result is the pair `(out, tmp)`. -/
def staggeredMatDagMat (env : HostEnv K) (out : ColorSpinorField (Nat → K))
    (fat_link long_link : GaugeField K) (inp : ColorSpinorField (Nat → K)) (mass : K)
    (dagger_bit : Int) (tmp : ColorSpinorField (Nat → K)) (parity : QudaParity)
    (dslash_type : QudaDslashType) :
    Except HostError (ColorSpinorField (Nat → K) × ColorSpinorField (Nat → K)) :=
  if inp.precision ≠ fat_link.precision then .error HostError.precisionMismatch
  else
    match otherParity parity with
    | none => .error HostError.fullParity
    | some otherparity =>
      match staggeredDslash env tmp fat_link long_link inp otherparity.toInt dagger_bit dslash_type with
      | .error e => .error e
      | .ok tmp1 =>
        match staggeredDslash env out fat_link long_link tmp1 parity.toInt dagger_bit dslash_type with
        | .error e => .error e
        | .ok out1 =>
          let msq_x4 := mass * mass * 4
          .ok (out1.setData (axmy env inp.v msq_x4 out1.v (env.Vh * env.stag_spinor_site_size)), tmp1)

/-- The squared operator as the specification words it, for comparison with
`staggeredMatDagMat`: the double application with opposite parity targets
minus the input scaled by the mass squared. -/
def staggeredMatDagMatClaimed (env : HostEnv K) (out : ColorSpinorField (Nat → K))
    (fat_link long_link : GaugeField K) (inp : ColorSpinorField (Nat → K)) (mass : K)
    (dagger_bit : Int) (tmp : ColorSpinorField (Nat → K)) (parity : QudaParity)
    (dslash_type : QudaDslashType) : Except HostError (Nat → K) :=
  match otherParity parity with
  | none => .error HostError.fullParity
  | some otherparity =>
    match staggeredDslash env tmp fat_link long_link inp otherparity.toInt dagger_bit dslash_type with
    | .error e => .error e
    | .ok tmp1 =>
      match staggeredDslash env out fat_link long_link tmp1 parity.toInt dagger_bit dslash_type with
      | .error e => .error e
      | .ok out1 => .ok (fun i => out1.v i - mass * mass * inp.v i)

/-- Component `i` of the field `out` returned by `staggeredMatDagMat`. -/
def outputAt (r : Except HostError (ColorSpinorField (Nat → K) × ColorSpinorField (Nat → K)))
    (i : Nat) : Option K :=
  match r with
  | .ok (res, _) => some (res.v i)
  | .error _ => none

/-- Component `i` of the array given by `staggeredMatDagMatClaimed`. -/
def claimedAt (r : Except HostError (Nat → K)) (i : Nat) : Option K :=
  match r with
  | .ok res => some (res i)
  | .error _ => none

/-- An update of an array that only touches the slice `[offset, offset + len)`
and whose new value at an index depends on the old value at that index only. -/
def ActsOnSlice (offset len : Nat) (A : (Nat → K) → (Nat → K)) : Prop :=
  ∀ r r2 i, (¬ (offset ≤ i ∧ i < offset + len) → A r i = r i) ∧ (r i = r2 i → A r i = A r2 i)

/-- A sample host environment over the integers: two sites of one component,
unit links, the neighbour of a site is the site itself, no ghost data, and the
given elementwise operation for `axmy`. -/
def sampleHostEnv (axmyOp : Int → Int → Int → Int) : HostEnv Int where
  Vh := 2
  stag_spinor_site_size := 1
  gaugeLink := fun _ _ _ _ _ _ _ => 1
  spinorNeighbor := fun sid _ _ spinorField _ _ _ _ j => spinorField (sid + j)
  su3Mul := fun link spinor j => link j * spinor j
  su3Tmul := fun link spinor j => link j * spinor j
  exchangeGhost := fun _ _ _ _ => (fun _ _ => 0, fun _ _ => 0)
  axmyOp := axmyOp

/-- The reading of `axmy` by its name: `y[i] = a * x[i] - y[i]`. -/
def axmyScaledMinus (x a y : Int) : Int := a * x - y

/-- The reading of `axmy` by the words of the spec, the subtraction of the
scaled input: `y[i] = y[i] - a * x[i]`. -/
def axmySubtractScaled (x a y : Int) : Int := y - a * x

/-- A double-precision sample gauge field. -/
def sampleGauge : GaugeField Int :=
  ⟨QudaPrecision.QUDA_DOUBLE_PRECISION, fun _ _ => 1, fun _ _ => 1⟩

/-- A double-precision sample host field with the same value at every index. -/
def sampleHostField (v : Int) : ColorSpinorField (Nat → Int) :=
  ⟨QudaPrecision.QUDA_DOUBLE_PRECISION, fun _ => v⟩

end Staggered
/-! ## Early returns of `operator()` -/

section EarlyReturns

variable {K V R : Type} [CommRing K] [AddCommGroup V] [Module K V] [LinearOrder R] [Zero R]

/-- The method `create` fails only on a negative subspace size. -/
theorem CAGCR.create_ok_of_nonneg (c : Collab K V R) (s : CAGCR K V R) (meta : ColorSpinorField V)
    (hN : 0 ≤ s.param.Nkrylov) : ∃ s1, s.create c meta = .ok s1 ∧ s1.param = s.param := by
  unfold CAGCR.create
  by_cases hinit : s.init = true
  · exact ⟨s, by simp [hinit], rfl⟩
  · simp [hinit, not_lt.mpr hN]

/-- C1. Degenerate case of `operator()`: for `x` and `b` of the configured
precision, if `maxiter` is 0 or `Nkrylov` is 0 the call returns without error,
with `x` zeroed when no initial guess is requested and `x` untouched when one
is; no operator is applied, `create` is not called, and the solver object and
`b` are unchanged. -/
theorem CAGCR.call_degenerate (c : Collab K V R) (verbosity : QudaVerbosity) (s : CAGCR K V R)
    (x b : ColorSpinorField V)
    (hprec : checkPrecision x b = some s.param.precision)
    (hdeg : s.param.maxiter = 0 ∨ s.param.Nkrylov = 0) :
    (s.call c verbosity x b).error = none ∧
    (s.param.use_init_guess = QudaUseInitGuess.QUDA_USE_INIT_GUESS_NO →
      (s.call c verbosity x b).x = ⟨x.precision, 0⟩) ∧
    (s.param.use_init_guess = QudaUseInitGuess.QUDA_USE_INIT_GUESS_YES →
      (s.call c verbosity x b).x = x) ∧
    Event.mat ∉ (s.call c verbosity x b).trace ∧
    Event.matSloppy ∉ (s.call c verbosity x b).trace ∧
    Event.create ∉ (s.call c verbosity x b).trace ∧
    (s.call c verbosity x b).solver = s ∧
    (s.call c verbosity x b).b = b := by
  unfold CAGCR.call
  by_cases hg : s.param.use_init_guess = QudaUseInitGuess.QUDA_USE_INIT_GUESS_NO
  · simp [hprec, hdeg, hg, blasZero, ColorSpinorField.setData]
  · simp [hprec, hdeg, hg]

/-- C2. Precision mismatch: when the precision reported for `(x, b)` is not the
configured one, `operator()` raises the precision-mismatch error before any
other step: the solver object (in particular `init` and every field it owns),
`x` and `b` are unchanged and the trace is empty, so that `create` was not
called and no operator was applied. No assumption is made on `maxiter` or
`Nkrylov`. -/
theorem CAGCR.call_precision_mismatch (c : Collab K V R) (verbosity : QudaVerbosity)
    (s : CAGCR K V R) (x b : ColorSpinorField V)
    (hmis : checkPrecision x b ≠ some s.param.precision) :
    (s.call c verbosity x b).error = some QudaError.precisionMismatch ∧
    (s.call c verbosity x b).solver = s ∧
    (s.call c verbosity x b).solver.init = s.init ∧
    (s.call c verbosity x b).x = x ∧
    (s.call c verbosity x b).b = b ∧
    (s.call c verbosity x b).trace = [] := by
  unfold CAGCR.call
  simp [hmis]

/-- C3. Zero source: for `x`, `b` of the configured precision with
`norm2(b) = 0`, positive `maxiter` and `Nkrylov` and null-vector mode off,
`operator()` returns without error with `x = b`, `true_res = 0` and
`true_res_hq = 0`, whatever the initial-guess flag; the outer loop is not
entered, `matSloppy` is not applied, and `b` is unchanged. -/
theorem CAGCR.call_zero_source (c : Collab K V R) (verbosity : QudaVerbosity) (s : CAGCR K V R)
    (x b : ColorSpinorField V)
    (hprec : checkPrecision x b = some s.param.precision)
    (hb : c.norm2 b.v = 0)
    (hmax : 0 < s.param.maxiter) (hN : 0 < s.param.Nkrylov)
    (hnull : s.param.compute_null_vector = QudaComputeNullVector.QUDA_COMPUTE_NULL_VECTOR_NO) :
    (s.call c verbosity x b).error = none ∧
    (s.call c verbosity x b).x = b ∧
    (s.call c verbosity x b).solver.param.true_res = 0 ∧
    (s.call c verbosity x b).solver.param.true_res_hq = 0 ∧
    Event.matSloppy ∉ (s.call c verbosity x b).trace ∧
    (∀ i t, Event.outerIteration i t ∉ (s.call c verbosity x b).trace) ∧
    (s.call c verbosity x b).b = b := by
  obtain ⟨s1, hs1, hp1⟩ := s.create_ok_of_nonneg c x hN.le
  unfold CAGCR.call
  have h0 : ¬ (s.param.maxiter = 0 ∨ s.param.Nkrylov = 0) := by omega
  simp only [hprec, ne_eq, not_true_eq_false, if_false, h0, hs1]
  unfold prelude
  by_cases hg : s.param.use_init_guess = QudaUseInitGuess.QUDA_USE_INIT_GUESS_YES
  · simp [hp1, hb, hnull, hg, Run.log, Run.applyMat, Run.xmyNorm]
  · simp [hp1, hb, hnull, hg, Run.log]

end EarlyReturns

/-! ## Loops of the update layer and the Krylov phase -/

section KrylovPhase

variable {K V R : Type} [CommRing K] [AddCommGroup V] [Module K V] [LinearOrder R] [Zero R]

/-- A loop of zero passes. -/
theorem forRange_zero {σ : Type} (body : Nat → σ → σ) (s : σ) : forRange 0 body s = s := rfl

/-- The last pass of a loop. -/
theorem forRange_succ {σ : Type} (n : Nat) (body : Nat → σ → σ) (s : σ) :
    forRange (n + 1) body s = body n (forRange n body s) := by
  simp [forRange, List.range_succ, List.foldl_append]

/-- A loop that rewrites entry `i` of a buffer from its old value in pass `i`. -/
theorem forRange_set_getElem? {α : Type} (g : Nat → α → α) (d : α) (n : Nat) (l : List α) :
    (forRange n (fun i a => a.set i (g i (a.getD i d))) l).length = l.length ∧
    ∀ j, (forRange n (fun i a => a.set i (g i (a.getD i d))) l)[j]? =
      if j < n then (l[j]?).map (g j) else l[j]? := by
  induction n with
  | zero => simp [forRange_zero]
  | succ n ih =>
    obtain ⟨hlen, hget⟩ := ih
    rw [forRange_succ]
    generalize forRange n (fun i a => a.set i (g i (a.getD i d))) l = m at hlen hget
    refine ⟨by simp [hlen], fun j => ?_⟩
    rw [List.getElem?_set]
    by_cases hj : n = j
    · subst hj
      by_cases hn : n < l.length
      · have h1 := hget n
        simp only [lt_irrefl, if_false] at h1
        simp [hlen, hn, h1, List.getElem?_eq_getElem hn]
      · simp [hlen, hn, List.getElem?_eq_none (not_lt.mp hn)]
    · have : (j < n + 1) = (j < n) := by
        apply propext; omega
      simp [hj, hget, this]

/-- A loop storing `psi i` at entry `i` of a buffer of length `n`. -/
theorem forRange_set_const_getD (psi : Nat → K) (n : Nat) (l : List K) (h : l.length = n)
    (i : Nat) (hi : i < n) : (forRange n (fun i a => a.set i (psi i)) l).getD i 0 = psi i := by
  rw [List.getD_eq_getElem?_getD, (forRange_set_getElem? (fun i _ => psi i) 0 n l).2 i, if_pos hi,
    List.getElem?_eq_getElem (by rw [h]; exact hi)]
  rfl

/-- The in-place negation loop over a buffer of length `n`. -/
theorem forRange_neg_eq_map (n : Nat) (l : List K) (h : l.length = n) :
    forRange n (fun i a => a.set i (-(a.getD i 0))) l = l.map Neg.neg := by
  apply List.ext_getElem?
  intro j
  rw [(forRange_set_getElem? (fun _ a => -a) 0 n l).2 j]
  by_cases hj : j < n
  · simp [hj]
  · simp [hj, List.getElem?_eq_none (by omega : l.length ≤ j)]

/-- The accumulation of `caxpy` over the sources, as a finite sum. -/
theorem foldl_enumFrom_axpy (a : Nat → K) (xs : List (ColorSpinorField V)) (n : Nat) (acc : V) :
    (xs.enumFrom n).foldl (fun acc ix => acc + a ix.1 • ix.2.v) acc =
      acc + ∑ i in Finset.range xs.length, a (n + i) • (xs.getD i default).v := by
  induction xs generalizing n acc with
  | nil => simp
  | cons x xs ih =>
    rw [List.enumFrom_cons, List.foldl_cons, ih, List.length_cons, Finset.sum_range_succ']
    simp only [List.getD_cons_succ, List.getD_cons_zero, add_zero]
    have : ∀ i, n + 1 + i = n + (i + 1) := fun i => by omega
    simp only [this]
    abel

/-- The batched update `caxpy` with a single target field. -/
theorem caxpy_single (a : List K) (xs : List (ColorSpinorField V)) (y : ColorSpinorField V) :
    caxpy a xs [y] =
      [y.setData (y.v + ∑ i in Finset.range xs.length, a.getD i 0 • (xs.getD i default).v)] := by
  unfold caxpy
  simp only [List.enum, List.enumFrom_cons, List.enumFrom_nil, List.map_cons, List.map_nil,
    List.length_singleton, Nat.mul_one, Nat.add_zero]
  rw [foldl_enumFrom_axpy (fun i => a.getD i 0) xs 0 y.v]
  simp


/-- Reading the negated coefficient buffer. -/
theorem getD_map_neg (l : List K) (i : Nat) : (l.map Neg.neg).getD i 0 = -(l.getD i 0) := by
  simp only [List.getD_eq_getElem?_getD, List.getElem?_map]
  cases l[i]? <;> simp

/-- Invariant of the subspace-build loop after `k` passes. -/
theorem buildLoop_inv (c : Collab K V R) (N : Nat) (run : Run K V R)
    (hp : run.solver.p.length = N) (hq : run.solver.q.length = N) (k : Nat) (hk : k ≤ N) :
    (forRange k (buildStep c N) run).solver.p.length = N ∧
    (forRange k (buildStep c N) run).solver.q.length = N ∧
    (forRange k (buildStep c N) run).solver.p.getD 0 default = run.solver.p.getD 0 default ∧
    (∀ j, j < k → ((forRange k (buildStep c N) run).solver.q.getD j default).v
        = c.matSloppy^[j + 1] (run.solver.p.getD 0 default).v) ∧
    (∀ j, j ≤ k → j < N → ((forRange k (buildStep c N) run).solver.p.getD j default).v
        = c.matSloppy^[j] (run.solver.p.getD 0 default).v) := by
  induction k with
  | zero =>
    refine ⟨hp, hq, rfl, fun j hj => absurd hj (Nat.not_lt_zero j), fun j hj _ => ?_⟩
    obtain rfl : j = 0 := Nat.le_zero.mp hj
    rfl
  | succ k ih =>
    obtain ⟨ihp, ihq, ih0, ihQ, ihP⟩ := ih (by omega)
    rw [forRange_succ]
    generalize forRange k (buildStep c N) run = mid at ihp ihq ih0 ihQ ihP
    have hkN : k < N := by omega
    have hqk : ((mid.solver.q.set k ((mid.solver.q.getD k default).setData
        (c.matSloppy (mid.solver.p.getD k default).v))).getD k default).v
          = c.matSloppy^[k + 1] (run.solver.p.getD 0 default).v := by
      rw [Function.iterate_succ_apply', ← ihP k le_rfl hkN]
      simp [List.getElem?_set, ihq, hkN, ColorSpinorField.setData]
    by_cases hlast : (k : Int) < (N : Int) - 1
    · have hk1 : k + 1 < N := by omega
      refine ⟨?_, ?_, ?_, ?_, ?_⟩
      · simp [buildStep, hlast, ihp]
      · simp [buildStep, ihq]
      · rw [← ih0]
        simp [buildStep, hlast, List.getElem?_set]
      · intro j hj
        by_cases hjk : j = k
        · subst hjk
          simpa [buildStep] using hqk
        · rw [← ihQ j (by omega)]
          simp [buildStep, List.getElem?_set, Ne.symm hjk]
      · intro j hj hjN
        by_cases hjk : j = k + 1
        · subst hjk
          rw [← hqk]
          simp [buildStep, hlast, List.getElem?_set, ihp, hk1, blasCopy, ColorSpinorField.setData]
        · rw [← ihP j (by omega) hjN]
          simp [buildStep, hlast, List.getElem?_set, Ne.symm hjk]
    · refine ⟨?_, ?_, ?_, ?_, ?_⟩
      · simp [buildStep, hlast, ihp]
      · simp [buildStep, ihq]
      · rw [← ih0]
        simp [buildStep, hlast]
      · intro j hj
        by_cases hjk : j = k
        · subst hjk
          simpa [buildStep] using hqk
        · rw [← ihQ j (by omega)]
          simp [buildStep, List.getElem?_set, Ne.symm hjk]
      · intro j hj hjN
        have : j ≤ k := by omega
        rw [← ihP j this hjN]
        simp [buildStep, hlast]


/-- What the subspace-build loop leaves untouched. -/
theorem buildLoop_frame (c : Collab K V R) (n : Int) (run : Run K V R) (k : Nat) :
    (forRange k (buildStep c n) run).x = run.x ∧
    (forRange k (buildStep c n) run).b = run.b ∧
    (forRange k (buildStep c n) run).error = run.error ∧
    (forRange k (buildStep c n) run).solver.alpha = run.solver.alpha ∧
    (forRange k (buildStep c n) run).solver.rp = run.solver.rp ∧
    (forRange k (buildStep c n) run).solver.param = run.solver.param ∧
    (forRange k (buildStep c n) run).trace = run.trace ++ List.replicate k Event.matSloppy ∧
    (forRange k (buildStep c n) run).solver.p.length = run.solver.p.length := by
  induction k with
  | zero => simp [forRange_zero]
  | succ k ih =>
    obtain ⟨h1, h2, h3, h4, h5, h6, h7, h8⟩ := ih
    rw [forRange_succ]
    refine ⟨by simpa [buildStep] using h1, by simpa [buildStep] using h2,
      by simpa [buildStep] using h3, by simpa [buildStep] using h4,
      by simpa [buildStep] using h5, by simpa [buildStep] using h6, ?_, ?_⟩
    · simp [buildStep, h7, List.replicate_succ', List.append_assoc]
    · rw [← h8]
      unfold buildStep
      dsimp only
      split_ifs <;> simp

/-- C5. Subspace chaining: for `N = Nkrylov` and `p`, `q` of length `N`, after
the subspace-build loop `q[k] = matSloppy(p[k])` for all `k < N` and
`p[k+1] = q[k]` for all `k < N-1`, hence `p[k] = matSloppy^k(p[0])` and
`q[k] = matSloppy^(k+1)(p[0])`; `p[0]` is not modified and `p`, `q` keep
length `N`. -/
theorem buildSubspace_chain (c : Collab K V R) (nKrylov : Int) (N : Nat) (run : Run K V R)
    (hN : nKrylov = N) (hp : run.solver.p.length = N) (hq : run.solver.q.length = N) :
    (∀ k, k < N → ((buildSubspace c nKrylov run).solver.q.getD k default).v
        = c.matSloppy ((buildSubspace c nKrylov run).solver.p.getD k default).v) ∧
    (∀ k, k + 1 < N → ((buildSubspace c nKrylov run).solver.p.getD (k + 1) default).v
        = ((buildSubspace c nKrylov run).solver.q.getD k default).v) ∧
    (∀ k, k < N → ((buildSubspace c nKrylov run).solver.p.getD k default).v
        = c.matSloppy^[k] (run.solver.p.getD 0 default).v) ∧
    (∀ k, k < N → ((buildSubspace c nKrylov run).solver.q.getD k default).v
        = c.matSloppy^[k + 1] (run.solver.p.getD 0 default).v) ∧
    (buildSubspace c nKrylov run).solver.p.getD 0 default = run.solver.p.getD 0 default ∧
    (buildSubspace c nKrylov run).solver.p.length = N ∧
    (buildSubspace c nKrylov run).solver.q.length = N := by
  subst hN
  obtain ⟨h1, h2, h3, hQ, hP⟩ := buildLoop_inv c N run hp hq N le_rfl
  unfold buildSubspace
  rw [Int.toNat_ofNat]
  refine ⟨fun k hk => ?_, fun k hk => ?_, fun k hk => hP k hk.le hk, fun k hk => hQ k hk, h3, h1, h2⟩
  · rw [hQ k hk, hP k hk.le hk, Function.iterate_succ_apply']
  · rw [hQ k (by omega), hP (k + 1) (by omega) hk]

/-- The state after build and solve: lengths, and what is left untouched. -/
theorem krylovSolve_frame (c : Collab K V R) (st : OuterState K V R) (N : Nat)
    (hN : st.nKrylov = N) (hp : st.run.solver.p.length = N) (hq : st.run.solver.q.length = N)
    (ha : st.run.solver.alpha.length = N) :
    (krylovSolve c st).x = st.run.x ∧
    (krylovSolve c st).solver.p.length = N ∧
    (krylovSolve c st).solver.q.length = N ∧
    (krylovSolve c st).solver.alpha.length = N ∧
    (krylovSolve c st).solver.p.getD 0 default = st.run.solver.p.getD 0 default ∧
    ∃ (A : Nat → Nat → K) (phi : Nat → K), ∀ i, i < N →
      (krylovSolve c st).solver.alpha.getD i 0 = c.luSolve N A phi i := by
  have hNt : st.nKrylov.toNat = N := by rw [hN, Int.toNat_ofNat]
  have hbuild : buildSubspace c st.nKrylov st.run = forRange N (buildStep c N) st.run := by
    unfold buildSubspace
    rw [hNt, hN]
  obtain ⟨hpl, hql, h0, _, _⟩ := buildLoop_inv c N st.run hp hq N le_rfl
  rw [← hbuild] at hpl hql h0
  have hf := buildLoop_frame c st.nKrylov st.run st.nKrylov.toNat
  have hal : (buildSubspace c st.nKrylov st.run).solver.alpha.length = N :=
    (congrArg List.length hf.2.2.2.1).trans ha
  refine ⟨hf.1, hpl, hql, ?_, h0, ?_⟩
  · show (forRange _ _ (buildSubspace c st.nKrylov st.run).solver.alpha).length = N
    rw [(forRange_set_getElem? (fun i _ => c.luSolve _ _ _ i) 0 _ _).1]
    exact hal
  · unfold krylovSolve CAGCR.solve
    dsimp only
    rw [hpl]
    exact ⟨_, _, fun i hi => forRange_set_const_getD _ N _ hal i hi⟩

/-- The update step on an arbitrary state with `p`, `q`, `alpha` of length `N`. -/
theorem updateStep_spec (nKrylov : Int) (run : Run K V R) (N : Nat)
    (hN : nKrylov = N) (hp : run.solver.p.length = N) (hq : run.solver.q.length = N)
    (ha : run.solver.alpha.length = N) :
    (updateStep nKrylov run).x.v = run.x.v + ∑ i in Finset.range N,
        run.solver.alpha.getD i 0 • (run.solver.p.getD i default).v ∧
    ((updateStep nKrylov run).solver.p.getD 0 default).v =
      (run.solver.p.getD 0 default).v - ∑ i in Finset.range N,
        run.solver.alpha.getD i 0 • (run.solver.q.getD i default).v ∧
    (updateStep nKrylov run).solver.alpha = run.solver.alpha.map Neg.neg ∧
    (updateStep nKrylov run).solver.q = run.solver.q := by
  have hNt : nKrylov.toNat = N := by rw [hN, Int.toNat_ofNat]
  have hneg := forRange_neg_eq_map N run.solver.alpha ha
  unfold updateStep
  simp only [caxpy_single, hNt, hneg, hp, hq]
  refine ⟨?_, ?_, trivial, trivial⟩
  · simp [ColorSpinorField.setData]
  · simp only [getD_map_neg, neg_smul, Finset.sum_neg_distrib]
    rcases hpe : run.solver.p with _ | ⟨p0, ps⟩
    · rw [hpe] at hp
      subst hp
      simp
    · simp [ColorSpinorField.setData, sub_eq_add_neg]

/-- C4. Update step of one outer iteration: with `alpha`, `p`, `q` (length `N`)
as they stand after the dense solve (`alpha` holding the `N` values returned by
the LU solve), the iteration sets
`x_new = x_old + sum_{i<N} alpha[i] * p[i]` and
`p[0]_new = p[0]_old - sum_{i<N} alpha[i] * q[i]`; the coefficient buffer is
negated in place, and the `x` update reads `p[0]` as it was before the residual
update (which is still the `p[0]` the iteration started from). -/
theorem krylovPhase_update (c : Collab K V R) (st : OuterState K V R) (N : Nat)
    (hN : st.nKrylov = N) (hp : st.run.solver.p.length = N) (hq : st.run.solver.q.length = N)
    (ha : st.run.solver.alpha.length = N) :
    (krylovPhase c st).run.x.v = st.run.x.v + ∑ i in Finset.range N,
        (krylovSolve c st).solver.alpha.getD i 0 • ((krylovSolve c st).solver.p.getD i default).v ∧
    ((krylovPhase c st).run.solver.p.getD 0 default).v =
      (st.run.solver.p.getD 0 default).v - ∑ i in Finset.range N,
        (krylovSolve c st).solver.alpha.getD i 0 • ((krylovSolve c st).solver.q.getD i default).v ∧
    (krylovPhase c st).run.solver.alpha = (krylovSolve c st).solver.alpha.map Neg.neg ∧
    (krylovSolve c st).solver.p.getD 0 default = st.run.solver.p.getD 0 default ∧
    (krylovPhase c st).run.solver.q = (krylovSolve c st).solver.q ∧
    ∃ (A : Nat → Nat → K) (phi : Nat → K), ∀ i, i < N →
      (krylovSolve c st).solver.alpha.getD i 0 = c.luSolve N A phi i := by
  obtain ⟨hx, hpl, hql, hal, h0, hlu⟩ := krylovSolve_frame c st N hN hp hq ha
  obtain ⟨h1, h2, h3, h4⟩ := updateStep_spec st.nKrylov (krylovSolve c st) N hN hpl hql hal
  rw [hx] at h1
  rw [h0] at h2
  exact ⟨h1, h2, h3, h0, h4, hlu⟩

end KrylovPhase


/-! ## Frame properties of the outer iteration -/

section OuterFrame

variable {K V R : Type} [CommRing K] [AddCommGroup V] [Module K V] [LinearOrder R] [Zero R]

/-- Writing through `r` does not touch the parameter block. -/
theorem CAGCR.setR_param (s : CAGCR K V R) (w : V) : (s.setR w).param = s.param := by
  unfold CAGCR.setR
  cases s.rp <;> rfl

/-- Writing through `r` does not change the length of `p`. -/
theorem CAGCR.setR_length (s : CAGCR K V R) (w : V) : (s.setR w).p.length = s.p.length := by
  unfold CAGCR.setR
  cases s.rp <;> simp

/-- Reading `r` after writing it, when `p[0]` exists. -/
theorem CAGCR.setR_r (s : CAGCR K V R) (w : V) (hp : 0 < s.p.length) : (s.setR w).r.v = w := by
  unfold CAGCR.setR CAGCR.r
  rcases hrp : s.rp with _ | f
  · simp [hp, ColorSpinorField.setData]
  · simp [ColorSpinorField.setData]

/-- What the Krylov phase of an iteration leaves untouched, and its step of `total_iter`. -/
theorem krylovPhase_frame (c : Collab K V R) (st : OuterState K V R) :
    (krylovPhase c st).run.b = st.run.b ∧
    (krylovPhase c st).run.error = st.run.error ∧
    (krylovPhase c st).run.solver.param = st.run.solver.param ∧
    (krylovPhase c st).run.trace = st.run.trace ++ List.replicate st.nKrylov.toNat Event.matSloppy ∧
    (krylovPhase c st).nKrylov = st.nKrylov ∧
    (krylovPhase c st).total_iter = st.total_iter + st.nKrylov ∧
    (krylovPhase c st).maxResIncrease = st.maxResIncrease ∧
    (krylovPhase c st).maxResIncreaseTotal = st.maxResIncreaseTotal ∧
    (krylovPhase c st).resIncrease = st.resIncrease ∧
    (krylovPhase c st).resIncreaseTotal = st.resIncreaseTotal ∧
    (krylovPhase c st).r2_old = st.r2_old ∧
    (krylovPhase c st).run.solver.p.length = st.run.solver.p.length := by
  obtain ⟨_, h2, h3, _, _, h6, h7, h8⟩ := buildLoop_frame c st.nKrylov st.run st.nKrylov.toNat
  refine ⟨h2, h3, h6, h7, rfl, rfl, rfl, rfl, rfl, rfl, rfl, ?_⟩
  rw [← h8]
  simp [krylovPhase, updateStep, krylovSolve, CAGCR.solve, buildSubspace]

/-- What the reliable update leaves untouched. -/
theorem reliableUpdate_frame (c : Collab K V R) (st : OuterState K V R) :
    (reliableUpdate c st).1.run.b = st.run.b ∧
    (reliableUpdate c st).1.run.error = st.run.error ∧
    (reliableUpdate c st).1.run.solver.param = st.run.solver.param ∧
    (reliableUpdate c st).1.nKrylov = st.nKrylov ∧
    (reliableUpdate c st).1.total_iter = st.total_iter ∧
    (reliableUpdate c st).1.maxResIncrease = st.maxResIncrease ∧
    (reliableUpdate c st).1.maxResIncreaseTotal = st.maxResIncreaseTotal ∧
    (∀ i t, Event.outerIteration i t ∈ (reliableUpdate c st).1.run.trace →
      Event.outerIteration i t ∈ st.run.trace) ∧
    (reliableUpdate c st).1.run.solver.p.length = st.run.solver.p.length := by
  unfold reliableUpdate resGuard
  dsimp only
  split_ifs <;>
    simp [Run.applyMat, Run.xmyNorm, Run.log, CAGCR.setR_param, CAGCR.setR_length]

/-- The step rule of the residual-growth guard inside the reliable update. -/
theorem reliableUpdate_guard (c : Collab K V R) (st : OuterState K V R)
    (hns : ¬ (st.r2 < st.stop ∧ st.run.solver.param.sloppy_converge = true)) :
    (((st.run.applyMat c).xmyNorm).xmyNormValue c > st.r2_old →
      (reliableUpdate c st).1.resIncrease = st.resIncrease + 1 ∧
      (reliableUpdate c st).1.resIncreaseTotal = st.resIncreaseTotal + 1 ∧
      ((reliableUpdate c st).2 = true ↔
        (reliableUpdate c st).1.resIncrease > st.maxResIncrease ∨
        (reliableUpdate c st).1.resIncreaseTotal > st.maxResIncreaseTotal)) ∧
    (((st.run.applyMat c).xmyNorm).xmyNormValue c ≤ st.r2_old →
      (reliableUpdate c st).1.resIncrease = 0 ∧
      (reliableUpdate c st).1.resIncreaseTotal = st.resIncreaseTotal ∧
      (reliableUpdate c st).2 = false) := by
  constructor
  · intro hgt
    unfold reliableUpdate resGuard
    dsimp only
    rw [if_neg hns]
    simp only [gt_iff_lt] at hgt
    simp only [gt_iff_lt, hgt, if_true]
    split_ifs <;> simp_all
  · intro hle
    have hng : ¬ (((st.run.applyMat c).xmyNorm).xmyNormValue c > st.r2_old) := not_lt.mpr hle
    unfold reliableUpdate resGuard
    dsimp only
    rw [if_neg hns]
    simp only [hng, if_false]
    split_ifs <;> simp_all

/-- The outer-loop body never touches the recorded iterations, and when it does
not break it re-establishes the guard invariant. -/
theorem outerBody_guardInv (c : Collab K V R) (m mtot : Int) (st : OuterState K V R)
    (hinv : GuardInv m mtot st) :
    (∀ i t, Event.outerIteration i t ∈ (outerBody c st).1.run.trace → i ≤ m ∧ t ≤ mtot ∧ i ≤ t) ∧
    ((outerBody c st).2 = false → GuardInv m mtot (outerBody c st).1) := by
  obtain ⟨hm, hmt, hm0, hr0, hrm, hrt, hrr, htr⟩ := hinv
  obtain ⟨_, _, _, ktr, _, _, km, kmt, kr, krt, _, _⟩ := krylovPhase_frame c st
  obtain ⟨_, _, _, _, _, rm, rmt, rtr, _⟩ := reliableUpdate_frame c (krylovPhase c st)
  have hb : outerBody c st = reliableUpdate c (krylovPhase c st) := rfl
  rw [hb]
  have htrace : ∀ i t, Event.outerIteration i t ∈ (reliableUpdate c (krylovPhase c st)).1.run.trace →
      i ≤ m ∧ t ≤ mtot ∧ i ≤ t := by
    intro i t h
    have h1 := rtr i t h
    rw [ktr] at h1
    rcases List.mem_append.mp h1 with h2 | h2
    · exact htr i t h2
    · simp [List.mem_replicate] at h2
  refine ⟨htrace, fun hnb => ?_⟩
  by_cases hs : (krylovPhase c st).r2 < (krylovPhase c st).stop ∧
      (krylovPhase c st).run.solver.param.sloppy_converge = true
  · exfalso
    have hbreak : (reliableUpdate c (krylovPhase c st)).2 = true := by
      unfold reliableUpdate
      rw [if_pos hs]
    rw [hbreak] at hnb
    exact Bool.noConfusion hnb
  · obtain ⟨hup, hdown⟩ := reliableUpdate_guard c (krylovPhase c st) hs
    rcases lt_or_le (krylovPhase c st).r2_old
        ((((krylovPhase c st).run.applyMat c).xmyNorm).xmyNormValue c) with hlt | hle
    · obtain ⟨e1, e2, e3⟩ := hup hlt
      have hnot : ¬ ((reliableUpdate c (krylovPhase c st)).1.resIncrease > (krylovPhase c st).maxResIncrease ∨
          (reliableUpdate c (krylovPhase c st)).1.resIncreaseTotal
            > (krylovPhase c st).maxResIncreaseTotal) := by
        intro h
        rw [e3.mpr h] at hnb
        exact Bool.noConfusion hnb
      rw [not_or, not_lt, not_lt] at hnot
      refine ⟨rm.trans (km.trans hm), rmt.trans (kmt.trans hmt), hm0, ?_, ?_, ?_, ?_, htrace⟩ <;> omega
    · obtain ⟨e1, e2, _⟩ := hdown hle
      refine ⟨rm.trans (km.trans hm), rmt.trans (kmt.trans hmt), hm0, ?_, ?_, ?_, ?_, htrace⟩ <;> omega

/-- The guard invariant is kept by the whole outer loop: every iteration it
records started with counters within the thresholds. -/
theorem outerLoop_guardInv (c : Collab K V R) (m mtot : Int) (fuel : Nat) (st : OuterState K V R)
    (hinv : GuardInv m mtot st) :
    ∀ i t, Event.outerIteration i t ∈ (outerLoop c fuel st).run.trace → i ≤ m ∧ t ≤ mtot ∧ i ≤ t := by
  induction fuel generalizing st with
  | zero => exact hinv.2.2.2.2.2.2.2
  | succ fuel ih =>
    unfold outerLoop
    by_cases hc : outerCond c st = true
    · rw [if_pos hc]
      dsimp only
      have hinv0 : GuardInv m mtot
          { st with run := st.run.log (Event.outerIteration st.resIncrease st.resIncreaseTotal) } := by
        obtain ⟨hm, hmt, hm0, hr0, hrm, hrt, hrr, htr⟩ := hinv
        refine ⟨hm, hmt, hm0, hr0, hrm, hrt, hrr, fun i t h => ?_⟩
        rcases List.mem_append.mp h with h1 | h1
        · exact htr i t h1
        · simp only [List.mem_singleton, Event.outerIteration.injEq] at h1
          obtain ⟨rfl, rfl⟩ := h1
          exact ⟨hrm, hrt, hrr⟩
      obtain ⟨htrace, hstep⟩ := outerBody_guardInv c m mtot _ hinv0
      rcases hbody : outerBody c
          { st with run := st.run.log (Event.outerIteration st.resIncrease st.resIncreaseTotal) }
        with ⟨st1, brk⟩
      rw [hbody] at htrace hstep
      cases brk with
      | true => exact htrace
      | false => exact ih st1 (hstep rfl)
    · rw [if_neg hc]
      exact hinv.2.2.2.2.2.2.2

end OuterFrame

/-! ## The prelude and the post-loop statements -/

section PreludePostLoop

variable {K V R : Type} [CommRing K] [AddCommGroup V] [Module K V] [LinearOrder R] [Zero R]

/-- The state in which the prelude enters the outer loop. -/
theorem prelude_inr (c : Collab K V R) (run : Run K V R) (st : OuterState K V R)
    (h : prelude c run = .inr st) :
    st.run.b = run.b ∧ st.run.error = run.error ∧ st.run.solver.param = run.solver.param ∧
    (∀ i t, Event.outerIteration i t ∈ st.run.trace → Event.outerIteration i t ∈ run.trace) ∧
    st.resIncrease = 0 ∧ st.resIncreaseTotal = 0 ∧
    st.maxResIncrease = run.solver.param.max_res_increase ∧
    st.maxResIncreaseTotal = run.solver.param.max_res_increase_total ∧
    st.total_iter = 0 ∧ st.nKrylov = run.solver.param.Nkrylov ∧
    ¬ (c.norm2 run.b.v = 0 ∧
        run.solver.param.compute_null_vector = QudaComputeNullVector.QUDA_COMPUTE_NULL_VECTOR_NO) := by
  unfold prelude at h
  dsimp only at h
  split_ifs at h <;>
    (cases h; simp_all [Run.applyMat, Run.xmyNorm, CAGCR.setR_param])

/-- The state in which the prelude returns on a zero source. -/
theorem prelude_inl (c : Collab K V R) (run : Run K V R) (done : Run K V R)
    (h : prelude c run = .inl done) :
    done.b = run.b ∧ done.error = run.error ∧
    (∀ i t, Event.outerIteration i t ∈ done.trace → Event.outerIteration i t ∈ run.trace) := by
  unfold prelude at h
  dsimp only at h
  split_ifs at h <;>
    (cases h; simp_all [Run.applyMat, Run.xmyNorm, Run.log])

/-- The post-loop statements record no outer iteration and raise no error. -/
theorem postLoop_frame (c : Collab K V R) (verbosity : QudaVerbosity) (st : OuterState K V R) :
    (postLoop c verbosity st).error = st.run.error ∧
    (∀ i t, Event.outerIteration i t ∈ (postLoop c verbosity st).trace →
      Event.outerIteration i t ∈ st.run.trace) := by
  unfold postLoop
  dsimp only
  split_ifs <;> simp [Run.applyMat, Run.xmyNorm, Run.log]

end PreludePostLoop

/-! ## The residual-growth guard -/

section Guard

variable {K V R : Type} [CommRing K] [AddCommGroup V] [Module K V] [LinearOrder R] [Zero R]

/-- C6 (amended). Residual-growth guard. Both counters start at 0. At each
reliable update, if the recomputed true residual norm is greater than the
previous reliable norm both counters grow by one and the guard leaves the loop
exactly when `resIncrease > max_res_increase` or
`resIncreaseTotal > max_res_increase_total`; otherwise `resIncrease` is reset
to 0, `resIncreaseTotal` is unchanged and the guard does not leave the loop.
Provided both thresholds are non-negative, every outer iteration of a call
starts with `resIncrease <= max_res_increase`,
`resIncreaseTotal <= max_res_increase_total` and
`resIncrease <= resIncreaseTotal`. -/
theorem CAGCR.call_residual_guard (c : Collab K V R) (verbosity : QudaVerbosity) (s : CAGCR K V R)
    (x b : ColorSpinorField V)
    (hm : 0 ≤ s.param.max_res_increase) (hmt : 0 ≤ s.param.max_res_increase_total) :
    (∀ run st, prelude c run = .inr st → st.resIncrease = 0 ∧ st.resIncreaseTotal = 0) ∧
    (∀ st : OuterState K V R,
      ¬ (st.r2 < st.stop ∧ st.run.solver.param.sloppy_converge = true) →
      (((st.run.applyMat c).xmyNorm).xmyNormValue c > st.r2_old →
        (reliableUpdate c st).1.resIncrease = st.resIncrease + 1 ∧
        (reliableUpdate c st).1.resIncreaseTotal = st.resIncreaseTotal + 1 ∧
        ((reliableUpdate c st).2 = true ↔
          (reliableUpdate c st).1.resIncrease > st.maxResIncrease ∨
          (reliableUpdate c st).1.resIncreaseTotal > st.maxResIncreaseTotal)) ∧
      (((st.run.applyMat c).xmyNorm).xmyNormValue c ≤ st.r2_old →
        (reliableUpdate c st).1.resIncrease = 0 ∧
        (reliableUpdate c st).1.resIncreaseTotal = st.resIncreaseTotal ∧
        (reliableUpdate c st).2 = false)) ∧
    (∀ i t, Event.outerIteration i t ∈ (s.call c verbosity x b).trace →
      i ≤ s.param.max_res_increase ∧ t ≤ s.param.max_res_increase_total ∧ i ≤ t) := by
  refine ⟨fun run st h => ?_, fun st hns => reliableUpdate_guard c st hns, ?_⟩
  · obtain ⟨_, _, _, _, h1, h2, _⟩ := prelude_inr c run st h
    exact ⟨h1, h2⟩
  · intro i t
    unfold CAGCR.call
    dsimp only
    split_ifs with h1 h2 h3
    · simp
    · simp
    · simp
    · rcases hcr : s.create c x with e | s1
      · simp
      · have hparam : s1.param = s.param := by
          unfold CAGCR.create at hcr
          split_ifs at hcr <;> cases hcr <;> rfl
        dsimp only
        rcases hpre : prelude c { solver := s1, x := x, b := b, trace := [Event.create], error := none }
          with done | st
        · intro hmem
          have := (prelude_inl c _ done hpre).2.2 i t hmem
          simp at this
        · obtain ⟨_, _, _, htr, hr, hrt, hmax, hmaxt, _⟩ := prelude_inr c _ st hpre
          have hinv : GuardInv s.param.max_res_increase s.param.max_res_increase_total st := by
            refine ⟨by rw [hmax, hparam], by rw [hmaxt, hparam], hm, by omega, by omega, by omega,
              by omega, fun i t hmem => ?_⟩
            have := htr i t hmem
            simp at this
          intro hmem
          exact outerLoop_guardInv c _ _ _ st hinv i t ((postLoop_frame c verbosity _).2 i t hmem)

end Guard

/-! ## The outer loop as a whole -/

section OuterLoop

variable {K V R : Type} [CommRing K] [AddCommGroup V] [Module K V] [LinearOrder R] [Zero R]

/-- What one pass of the outer-loop body leaves untouched. -/
theorem outerBody_frame (c : Collab K V R) (st : OuterState K V R) :
    (outerBody c st).1.run.b = st.run.b ∧
    (outerBody c st).1.run.error = st.run.error ∧
    (outerBody c st).1.run.solver.param = st.run.solver.param ∧
    (outerBody c st).1.run.solver.p.length = st.run.solver.p.length ∧
    (outerBody c st).1.nKrylov = st.nKrylov ∧
    (outerBody c st).1.total_iter = st.total_iter + st.nKrylov := by
  obtain ⟨k1, k2, k3, _, k5, k6, _, _, _, _, _, k12⟩ := krylovPhase_frame c st
  obtain ⟨r1, r2, r3, r4, r5, _, _, _, r9⟩ := reliableUpdate_frame c (krylovPhase c st)
  exact ⟨r1.trans k1, r2.trans k2, r3.trans k3, r9.trans k12, r4.trans k5, r5.trans k6⟩

/-- What the outer loop leaves untouched. -/
theorem outerLoop_frame (c : Collab K V R) (fuel : Nat) (st : OuterState K V R) :
    (outerLoop c fuel st).run.b = st.run.b ∧
    (outerLoop c fuel st).run.error = st.run.error ∧
    (outerLoop c fuel st).run.solver.param = st.run.solver.param ∧
    (outerLoop c fuel st).run.solver.p.length = st.run.solver.p.length := by
  induction fuel generalizing st with
  | zero => exact ⟨rfl, rfl, rfl, rfl⟩
  | succ fuel ih =>
    unfold outerLoop
    by_cases hc : outerCond c st = true
    · rw [if_pos hc]
      dsimp only
      obtain ⟨b1, b2, b3, b4, _, _⟩ := outerBody_frame c
        { st with run := st.run.log (Event.outerIteration st.resIncrease st.resIncreaseTotal) }
      rcases hbody : outerBody c
          { st with run := st.run.log (Event.outerIteration st.resIncrease st.resIncreaseTotal) }
        with ⟨st1, brk⟩
      rw [hbody] at b1 b2 b3 b4
      cases brk with
      | true => exact ⟨b1, b2, b3, b4⟩
      | false =>
        obtain ⟨i1, i2, i3, i4⟩ := ih st1
        exact ⟨i1.trans b1, i2.trans b2, i3.trans b3, i4.trans b4⟩
    · rw [if_neg hc]
      exact ⟨rfl, rfl, rfl, rfl⟩

end OuterLoop

/-! ## Source preservation -/

section Source

variable {K V R : Type} [CommRing K] [AddCommGroup V] [Module K V] [LinearOrder R] [Zero R]

/-- The field `r` refers to is determined by `rp` and `p`. -/
theorem CAGCR.r_congr (s t : CAGCR K V R) (h1 : s.rp = t.rp) (h2 : s.p = t.p) : s.r = t.r := by
  unfold CAGCR.r
  rw [h1, h2]

/-- With the source preserved the post-loop statements leave `b` alone. -/
theorem postLoop_preserve (c : Collab K V R) (verbosity : QudaVerbosity) (st : OuterState K V R)
    (hyes : st.run.solver.param.preserve_source = QudaPreserveSource.QUDA_PRESERVE_SOURCE_YES) :
    (postLoop c verbosity st).b = st.run.b := by
  unfold postLoop
  dsimp only
  split_ifs <;>
    simp_all [Run.applyMat, Run.xmyNorm, Run.log, CAGCR.setR_param]

/-- Without source preservation the post-loop statements store the final
residual in `b`. -/
theorem postLoop_overwrite (c : Collab K V R) (verbosity : QudaVerbosity) (st : OuterState K V R)
    (hp : 0 < st.run.solver.p.length)
    (hno : st.run.solver.param.preserve_source = QudaPreserveSource.QUDA_PRESERVE_SOURCE_NO) :
    (postLoop c verbosity st).b.precision = st.run.b.precision ∧
    (st.run.solver.param.compute_true_res = true →
      (postLoop c verbosity st).b.v = st.run.b.v - c.mat (postLoop c verbosity st).x.v) ∧
    (st.run.solver.param.compute_true_res = false →
      (postLoop c verbosity st).b.v = ((postLoop c verbosity st).solver.p.getD 0 default).v) := by
  have hr : ∀ w : V, ((st.run.solver.setR (c.mat st.run.x.v)).setR w).r.v = w := fun w =>
    CAGCR.setR_r _ w (by rw [CAGCR.setR_length]; exact hp)
  have hr1 : (st.run.solver.setR (c.mat st.run.x.v)).r.v = c.mat st.run.x.v :=
    CAGCR.setR_r _ _ hp
  unfold postLoop
  dsimp only
  split_ifs <;>
    simp_all [Run.applyMat, Run.xmyNorm, Run.log, CAGCR.setR_param, blasCopy,
      ColorSpinorField.setData]
  all_goals exact (congrArg ColorSpinorField.v (CAGCR.r_congr _ _ rfl rfl)).trans (hr _)

/-- After a successful `create` with a positive subspace size, `p[0]` exists. -/
theorem CAGCR.create_p_pos (c : Collab K V R) (s s1 : CAGCR K V R) (meta : ColorSpinorField V)
    (hwf : s.wellFormed) (hN : 0 < s.param.Nkrylov) (h : s.create c meta = .ok s1) :
    0 < s1.p.length ∧ s1.param = s.param := by
  unfold CAGCR.create at h
  by_cases hinit : s.init = true
  · simp only [hinit, Bool.not_true, Bool.false_eq_true, if_false] at h
    cases h
    refine ⟨?_, rfl⟩
    rw [hwf hinit]
    omega
  · have hneg : ¬ s.param.Nkrylov < 0 := by omega
    simp only [hinit, Bool.not_false, if_true, hneg, if_false] at h
    cases h
    refine ⟨?_, rfl⟩
    dsimp only
    rw [(forRange_set_getElem? (fun _ _ => _) default _ _).1]
    simp only [List.length_replicate]
    omega

/-- C8. Source preservation. With `preserve_source = YES` the field `b` after
`operator()(x, b)` is the `b` passed in, on every path. With
`preserve_source = NO`, for a call that reaches the post-loop statements
(configured precision, `maxiter != 0`, positive `Nkrylov` on a well-formed
solver, no zero-source return), `b` keeps its precision and its data is the
final residual: `b_old - mat(x)` for the `x` returned when `compute_true_res`
is set, the contents of `p[0]` otherwise. -/
theorem CAGCR.call_source (c : Collab K V R) (verbosity : QudaVerbosity) (s : CAGCR K V R)
    (x b : ColorSpinorField V) :
    (s.param.preserve_source = QudaPreserveSource.QUDA_PRESERVE_SOURCE_YES →
      (s.call c verbosity x b).b = b) ∧
    (s.param.preserve_source = QudaPreserveSource.QUDA_PRESERVE_SOURCE_NO →
      checkPrecision x b = some s.param.precision →
      s.param.maxiter ≠ 0 → 0 < s.param.Nkrylov → s.wellFormed →
      ¬ (c.norm2 b.v = 0 ∧
          s.param.compute_null_vector = QudaComputeNullVector.QUDA_COMPUTE_NULL_VECTOR_NO) →
      (s.call c verbosity x b).b.precision = b.precision ∧
      (s.param.compute_true_res = true →
        (s.call c verbosity x b).b.v = b.v - c.mat (s.call c verbosity x b).x.v) ∧
      (s.param.compute_true_res = false →
        (s.call c verbosity x b).b.v = ((s.call c verbosity x b).solver.p.getD 0 default).v)) := by
  constructor
  · intro hyes
    unfold CAGCR.call
    dsimp only
    split_ifs with h1 h2 h3
    · rfl
    · rfl
    · rfl
    · rcases hcr : s.create c x with e | s1
      · rfl
      · have hparam : s1.param = s.param := by
          unfold CAGCR.create at hcr
          split_ifs at hcr <;> cases hcr <;> rfl
        dsimp only
        rcases hpre : prelude c { solver := s1, x := x, b := b, trace := [Event.create], error := none }
          with done | st
        · exact (prelude_inl c _ done hpre).1
        · obtain ⟨hb, _, hprm, _⟩ := prelude_inr c _ st hpre
          obtain ⟨lb, _, lprm, _⟩ := outerLoop_frame c s.param.maxiter.toNat st
          dsimp only
          rw [postLoop_preserve c verbosity _ (by rw [lprm, hprm]; exact hparam ▸ hyes), lb, hb]
  · intro hno hprec hmax hN hwf hzero
    have hdeg : ¬ (s.param.maxiter = 0 ∨ s.param.Nkrylov = 0) := by omega
    obtain ⟨s1, hcr, _⟩ := s.create_ok_of_nonneg c x hN.le
    obtain ⟨hp1, hparam⟩ := CAGCR.create_p_pos c s s1 x hwf hN hcr
    unfold CAGCR.call
    simp only [hprec, ne_eq, not_true_eq_false, if_false, hdeg, hcr]
    rcases hpre : prelude c { solver := s1, x := x, b := b, trace := [Event.create], error := none }
      with done | st
    · exfalso
      unfold prelude at hpre
      dsimp only at hpre
      rw [hparam] at hpre
      simp [hzero] at hpre
    · obtain ⟨hb, _, hprm, _⟩ := prelude_inr c _ st hpre
      obtain ⟨lb, _, lprm, lp⟩ := outerLoop_frame c s.param.maxiter.toNat st
      have hplen : 0 < st.run.solver.p.length := by
        unfold prelude at hpre
        dsimp only at hpre
        rw [hparam] at hpre
        simp only [hzero, if_false] at hpre
        cases hpre
        unfold Run.applyMat Run.xmyNorm
        dsimp only
        split_ifs <;> simpa [CAGCR.setR_length] using hp1
      have hprm2 : (outerLoop c s.param.maxiter.toNat st).run.solver.param = s.param := by
        rw [lprm, hprm]; exact hparam
      obtain ⟨o1, o2, o3⟩ := postLoop_overwrite c verbosity (outerLoop c s.param.maxiter.toNat st)
        (by rw [lp]; exact hplen) (by rw [hprm2]; exact hno)
      rw [hprm2] at o2 o3
      rw [lb, hb] at o1 o2
      exact ⟨o1, o2, o3⟩

end Source

/-! ## Runs on the sample data -/

section SampleRuns

open QudaVerbosity

/-- The degenerate case on the sample solver with `maxiter = 0`: `x` is zeroed. -/
theorem CAGCR.call_degenerate_witness :
    checkPrecision (sampleField 5) (sampleField 1) = some (sampleParam 2 0 1 10).precision ∧
    ((sampleParam 2 0 1 10).maxiter = 0 ∨ (sampleParam 2 0 1 10).Nkrylov = 0) ∧
    ((sampleSolver (sampleParam 2 0 1 10)).call (sampleCollab 1) QUDA_SUMMARIZE
        (sampleField 5) (sampleField 1)).x = ⟨QudaPrecision.QUDA_DOUBLE_PRECISION, 0⟩ ∧
    Event.create ∉ ((sampleSolver (sampleParam 2 0 1 10)).call (sampleCollab 1) QUDA_SUMMARIZE
        (sampleField 5) (sampleField 1)).trace :=
  ⟨by decide, by decide,
    (CAGCR.call_degenerate (sampleCollab 1) QUDA_SUMMARIZE (sampleSolver (sampleParam 2 0 1 10))
      (sampleField 5) (sampleField 1) (by decide) (by decide)).2.1 (by decide),
    (CAGCR.call_degenerate (sampleCollab 1) QUDA_SUMMARIZE (sampleSolver (sampleParam 2 0 1 10))
      (sampleField 5) (sampleField 1) (by decide) (by decide)).2.2.2.2.2.1⟩

/-- A single-precision `x` against a double-precision solver: the call fails
at once, also with `maxiter = 0`. -/
theorem CAGCR.call_precision_mismatch_witness :
    checkPrecision (sampleFieldSingle 5) (sampleField 1) ≠ some (sampleParam 2 0 1 10).precision ∧
    ((sampleSolver (sampleParam 2 0 1 10)).call (sampleCollab 1) QUDA_SUMMARIZE
        (sampleFieldSingle 5) (sampleField 1)).error = some QudaError.precisionMismatch ∧
    ((sampleSolver (sampleParam 2 0 1 10)).call (sampleCollab 1) QUDA_SUMMARIZE
        (sampleFieldSingle 5) (sampleField 1)).trace = [] :=
  ⟨by decide,
    (CAGCR.call_precision_mismatch (sampleCollab 1) QUDA_SUMMARIZE
      (sampleSolver (sampleParam 2 0 1 10)) (sampleFieldSingle 5) (sampleField 1) (by decide)).1,
    (CAGCR.call_precision_mismatch (sampleCollab 1) QUDA_SUMMARIZE
      (sampleSolver (sampleParam 2 0 1 10)) (sampleFieldSingle 5) (sampleField 1)
      (by decide)).2.2.2.2.2⟩

/-- The zero source on the sample solver: `x` becomes `b`. -/
theorem CAGCR.call_zero_source_witness :
    (sampleCollab 1).norm2 (sampleField 0).v = 0 ∧
    ((sampleSolver (sampleParam 2 4 1 10)).call (sampleCollab 1) QUDA_SUMMARIZE
        (sampleField 5) (sampleField 0)).x = sampleField 0 ∧
    ((sampleSolver (sampleParam 2 4 1 10)).call (sampleCollab 1) QUDA_SUMMARIZE
        (sampleField 5) (sampleField 0)).solver.param.true_res = 0 :=
  ⟨by decide,
    (CAGCR.call_zero_source (sampleCollab 1) QUDA_SUMMARIZE (sampleSolver (sampleParam 2 4 1 10))
      (sampleField 5) (sampleField 0) (by decide) (by decide) (by decide) (by decide)
      (by decide)).2.1,
    (CAGCR.call_zero_source (sampleCollab 1) QUDA_SUMMARIZE (sampleSolver (sampleParam 2 4 1 10))
      (sampleField 5) (sampleField 0) (by decide) (by decide) (by decide) (by decide)
      (by decide)).2.2.1⟩

/-- The update step on the sample loop state, with two directions. -/
theorem krylovPhase_update_witness :
    sampleOuter.run.solver.p.length = 2 ∧ sampleOuter.run.solver.q.length = 2 ∧
    sampleOuter.run.solver.alpha.length = 2 ∧
    (krylovPhase (sampleCollab 0) sampleOuter).run.solver.alpha
      = (krylovSolve (sampleCollab 0) sampleOuter).solver.alpha.map Neg.neg :=
  ⟨by decide, by decide, by decide,
    (krylovPhase_update (sampleCollab 0) sampleOuter 2 (by decide) (by decide) (by decide)
      (by decide)).2.2.1⟩

/-- The subspace build on the sample run, with two directions. -/
theorem buildSubspace_chain_witness :
    sampleRun.solver.p.length = 2 ∧ sampleRun.solver.q.length = 2 ∧
    (buildSubspace (sampleCollab 0) 2 sampleRun).solver.p.getD 0 default
      = sampleRun.solver.p.getD 0 default ∧
    (buildSubspace (sampleCollab 0) 2 sampleRun).solver.q.length = 2 :=
  ⟨by decide, by decide,
    (buildSubspace_chain (sampleCollab 0) 2 2 sampleRun (by decide) (by decide)
      (by decide)).2.2.2.2.1,
    (buildSubspace_chain (sampleCollab 0) 2 2 sampleRun (by decide) (by decide)
      (by decide)).2.2.2.2.2.2⟩

/-- With `max_res_increase = -1` the first outer iteration starts with
`resIncrease = 0`, above the threshold: the bound on `resIncrease` at the start
of an iteration does not hold for a negative threshold. -/
theorem CAGCR.call_residual_guard_counterexample :
    ¬ (∀ i t, Event.outerIteration i t ∈
        ((sampleSolver (sampleParam 2 4 (-1) 10)).call (sampleCollab 1) QUDA_SILENT
          (sampleField 5) (sampleField 1)).trace →
      i ≤ (sampleParam 2 4 (-1) 10).max_res_increase ∧
      t ≤ (sampleParam 2 4 (-1) 10).max_res_increase_total ∧ i ≤ t) := by
  intro h
  exact absurd (h 0 0 (by decide)).1 (by decide)

/-- The guard on a sample run whose true residual grows at every reliable
update: the second iteration starts with both counters at 1. -/
theorem CAGCR.call_residual_guard_witness :
    0 ≤ (sampleParam 2 4 1 10).max_res_increase ∧
    0 ≤ (sampleParam 2 4 1 10).max_res_increase_total ∧
    Event.outerIteration 1 1 ∈
      ((sampleSolver (sampleParam 2 4 1 10)).call (sampleCollab 3) QUDA_SILENT
        (sampleField 5) (sampleField 1)).trace ∧
    ((1 : Int) ≤ (sampleParam 2 4 1 10).max_res_increase ∧
      (1 : Int) ≤ (sampleParam 2 4 1 10).max_res_increase_total ∧ (1 : Int) ≤ 1) :=
  ⟨by decide, by decide, by decide,
    (CAGCR.call_residual_guard (sampleCollab 3) QUDA_SILENT (sampleSolver (sampleParam 2 4 1 10))
      (sampleField 5) (sampleField 1) (by decide) (by decide)).2.2 1 1 (by decide)⟩

/-- C7. Evaluation at the failing input: `Nkrylov = 2`, `maxiter = 4`, a
convergence test that never succeeds and verbosity `QUDA_SUMMARIZE`. The outer
loop runs twice and ends on the iteration budget with `total_iter = 4 =
maxiter` (added to `param.iter`), the call returns without error, and no
`Exceeded maximum iterations` warning is in the trace; with `maxiter = 3` the
same run ends with `total_iter = 4 > maxiter` and the warning is there. -/
theorem CAGCR.call_budget_exhausted_silent :
    (∀ r2 hq stop tol_hq : Int, (sampleCollab 0).convergence r2 hq stop tol_hq = false) ∧
    ((sampleSolver (sampleParam 2 4 1 10)).call (sampleCollab 0) QUDA_SUMMARIZE
        (sampleField 5) (sampleField 1)).trace
      = [Event.create,
         Event.outerIteration 0 0, Event.matSloppy, Event.matSloppy, Event.mat,
         Event.outerIteration 0 0, Event.matSloppy, Event.matSloppy, Event.mat,
         Event.mat] ∧
    ((sampleSolver (sampleParam 2 4 1 10)).call (sampleCollab 0) QUDA_SUMMARIZE
        (sampleField 5) (sampleField 1)).solver.param.iter = (sampleParam 2 4 1 10).maxiter ∧
    ((sampleSolver (sampleParam 2 4 1 10)).call (sampleCollab 0) QUDA_SUMMARIZE
        (sampleField 5) (sampleField 1)).error = none ∧
    Event.warning Warning.exceededMaxIter ∉
      ((sampleSolver (sampleParam 2 4 1 10)).call (sampleCollab 0) QUDA_SUMMARIZE
        (sampleField 5) (sampleField 1)).trace ∧
    Event.warning Warning.exceededMaxIter ∈
      ((sampleSolver (sampleParam 2 3 1 10)).call (sampleCollab 0) QUDA_SUMMARIZE
        (sampleField 5) (sampleField 1)).trace :=
  ⟨fun _ _ _ _ => rfl, by decide, by decide, by decide, by decide, by decide⟩

/-- Source preservation on the sample solver: `b` is kept with
`preserve_source = YES`, and with `preserve_source = NO` it receives
`b - mat(x)` (full operator: multiplication by 3). -/
theorem CAGCR.call_source_witness :
    ((sampleSolver (sampleParam 2 4 1 10)).call (sampleCollab 3) QUDA_SILENT
        (sampleField 5) (sampleField 1)).b = sampleField 1 ∧
    ((sampleSolver (sampleParamOverwrite true)).call (sampleCollab 3) QUDA_SILENT
        (sampleField 5) (sampleField 1)).b.v
      = (sampleField 1).v - (sampleCollab 3).mat
          ((sampleSolver (sampleParamOverwrite true)).call (sampleCollab 3) QUDA_SILENT
            (sampleField 5) (sampleField 1)).x.v :=
  ⟨(CAGCR.call_source (sampleCollab 3) QUDA_SILENT (sampleSolver (sampleParam 2 4 1 10))
      (sampleField 5) (sampleField 1)).1 (by decide),
    ((CAGCR.call_source (sampleCollab 3) QUDA_SILENT (sampleSolver (sampleParamOverwrite true))
      (sampleField 5) (sampleField 1)).2 (by decide) (by decide) (by decide) (by decide)
      (fun h => absurd h (by decide)) (by decide)).2.1 (by decide)⟩

end SampleRuns

/-! ## The staggered reference operator -/

section StaggeredTheorems

variable {K : Type} [CommRing K]

/-- Slice updates compose. -/
theorem ActsOnSlice.comp {offset len : Nat} {A B : (Nat → K) → (Nat → K)}
    (hA : ActsOnSlice offset len A) (hB : ActsOnSlice offset len B) :
    ActsOnSlice offset len (fun r => A (B r)) := by
  intro r r2 i
  refine ⟨fun hout => ?_, fun heq => ?_⟩
  · show A (B r) i = r i
    rw [(hA (B r) (B r) i).1 hout, (hB r r i).1 hout]
  · show A (B r) i = A (B r2) i
    exact (hA (B r) (B r2) i).2 ((hB r r2 i).2 heq)

/-- The identity is a slice update. -/
theorem ActsOnSlice.id (offset len : Nat) : ActsOnSlice offset len (fun r : Nat → K => r) :=
  fun _ _ _ => ⟨fun _ => rfl, fun h => h⟩

/-- A `for` loop of slice updates is a slice update. -/
theorem ActsOnSlice.forRange {offset len : Nat} (n : Nat) (body : Nat → (Nat → K) → (Nat → K))
    (h : ∀ k, ActsOnSlice offset len (body k)) :
    ActsOnSlice offset len (fun r => forRange n body r) := by
  induction n with
  | zero => exact ActsOnSlice.id offset len
  | succ n ih =>
    have := ActsOnSlice.comp (h n) ih
    simpa only [forRange_succ] using this

/-- Adding a vector at a slice is a slice update. -/
theorem sumAt_actsOnSlice (offset len : Nat) (g : Nat → K) :
    ActsOnSlice offset len (fun r => sumAt r offset len g) := by
  intro r r2 i
  unfold sumAt
  by_cases h : offset ≤ i ∧ i < offset + len
  · simp only [h, and_self, if_true, not_true_eq_false, false_implies, true_and]
    intro heq
    rw [heq]
  · simp [h]

/-- Subtracting a vector at a slice is a slice update. -/
theorem subAt_actsOnSlice (offset len : Nat) (g : Nat → K) :
    ActsOnSlice offset len (fun r => subAt r offset len g) := by
  intro r r2 i
  unfold subAt
  by_cases h : offset ≤ i ∧ i < offset + len
  · simp only [h, and_self, if_true, not_true_eq_false, false_implies, true_and]
    intro heq
    rw [heq]
  · simp [h]

/-- The pass for one direction updates the slice of its site only. -/
theorem dirStep_actsOnSlice (env : HostEnv K) (fatlink longlink ghostFatlink ghostLonglink : Nat → Nat → K)
    (spinorField : Nat → K) (fwd back : Nat → Nat → K) (oddBit : Int)
    (dslash_type : QudaDslashType) (sid dir : Nat) :
    ActsOnSlice (env.stag_spinor_site_size * sid) env.stag_spinor_site_size
      (dirStep env fatlink longlink ghostFatlink ghostLonglink spinorField fwd back oddBit
        dslash_type sid dir) := by
  unfold dirStep
  dsimp only
  split_ifs
  all_goals
    first
    | exact sumAt_actsOnSlice _ _ _
    | exact subAt_actsOnSlice _ _ _
    | exact ActsOnSlice.comp (sumAt_actsOnSlice _ _ _) (sumAt_actsOnSlice _ _ _)
    | exact ActsOnSlice.comp (subAt_actsOnSlice _ _ _) (sumAt_actsOnSlice _ _ _)
    | exact ActsOnSlice.comp (subAt_actsOnSlice _ _ _) (subAt_actsOnSlice _ _ _)

/-- After `k` sites the dagger-mode array is the negation of the plain one below
`stag_spinor_site_size * k`, and both still hold their initial values above. -/
theorem siteLoop_dagger (env : HostEnv K) (fatlink longlink ghostFatlink ghostLonglink : Nat → Nat → K)
    (spinorField : Nat → K) (fwd back : Nat → Nat → K) (oddBit : Int)
    (dslash_type : QudaDslashType) (res0 : Nat → K) (k : Nat) (i : Nat) :
    (i < env.stag_spinor_site_size * k →
      forRange k (siteStep env fatlink longlink ghostFatlink ghostLonglink spinorField fwd back
          oddBit 1 dslash_type) res0 i
        = -forRange k (siteStep env fatlink longlink ghostFatlink ghostLonglink spinorField fwd back
          oddBit 0 dslash_type) res0 i) ∧
    (env.stag_spinor_site_size * k ≤ i →
      forRange k (siteStep env fatlink longlink ghostFatlink ghostLonglink spinorField fwd back
          oddBit 1 dslash_type) res0 i = res0 i ∧
      forRange k (siteStep env fatlink longlink ghostFatlink ghostLonglink spinorField fwd back
          oddBit 0 dslash_type) res0 i = res0 i) := by
  induction k generalizing i with
  | zero => exact ⟨fun h => absurd h (by simp), fun _ => ⟨rfl, rfl⟩⟩
  | succ k ih =>
    simp only [forRange_succ]
    generalize forRange k (siteStep env fatlink longlink ghostFatlink ghostLonglink spinorField
      fwd back oddBit 1 dslash_type) res0 = rD at ih
    generalize forRange k (siteStep env fatlink longlink ghostFatlink ghostLonglink spinorField
      fwd back oddBit 0 dslash_type) res0 = rP at ih
    have hA : ActsOnSlice (env.stag_spinor_site_size * k) env.stag_spinor_site_size
        (forRange 8 (dirStep env fatlink longlink ghostFatlink ghostLonglink spinorField fwd back
          oddBit dslash_type k)) :=
      ActsOnSlice.forRange 8 _ (fun dir => dirStep_actsOnSlice env fatlink longlink
        ghostFatlink ghostLonglink spinorField fwd back oddBit dslash_type k dir)
    have hmul : env.stag_spinor_site_size * (k + 1)
        = env.stag_spinor_site_size * k + env.stag_spinor_site_size := Nat.mul_succ _ _
    unfold siteStep negxAt
    simp only [ne_eq, one_ne_zero, not_false_eq_true, if_true, not_true_eq_false, if_false]
    by_cases hin : env.stag_spinor_site_size * k ≤ i ∧
        i < env.stag_spinor_site_size * k + env.stag_spinor_site_size
    · obtain ⟨hD, hP⟩ := (ih i).2 hin.1
      have heq := (hA rD rP i).2 (hD.trans hP.symm)
      simp only [hin, and_self, if_true]
      refine ⟨fun _ => by rw [heq], fun hge => ?_⟩
      omega
    · have hDout := (hA rD rD i).1 hin
      have hPout := (hA rP rP i).1 hin
      simp only [hin, if_false]
      rw [hDout, hPout]
      refine ⟨fun hlt => (ih i).1 (by omega), fun hge => (ih i).2 (by omega)⟩

/-- C9. Dagger is negation of the stencil: for every spinor field, link
fields, `oddBit` and `dslash_type`, at each of the
`Vh * stag_spinor_site_size` components the result of
`staggeredDslashReference` with `daggerBit = 1` is the negation of its result
with `daggerBit = 0`; hence negating the dagger-mode result gives back the
plain accumulation. -/
theorem staggeredDslashReference_dagger (env : HostEnv K) (res : Nat → K)
    (fatlink longlink ghostFatlink ghostLonglink : Nat → Nat → K)
    (spinorField : Nat → K) (fwd_nbr_spinor back_nbr_spinor : Nat → Nat → K) (oddBit : Int)
    (dslash_type : QudaDslashType) (i : Nat) (hi : i < env.Vh * env.stag_spinor_site_size) :
    staggeredDslashReference env res fatlink longlink ghostFatlink ghostLonglink spinorField
        fwd_nbr_spinor back_nbr_spinor oddBit 1 dslash_type i
      = -staggeredDslashReference env res fatlink longlink ghostFatlink ghostLonglink spinorField
        fwd_nbr_spinor back_nbr_spinor oddBit 0 dslash_type i ∧
    -staggeredDslashReference env res fatlink longlink ghostFatlink ghostLonglink spinorField
        fwd_nbr_spinor back_nbr_spinor oddBit 1 dslash_type i
      = staggeredDslashReference env res fatlink longlink ghostFatlink ghostLonglink spinorField
        fwd_nbr_spinor back_nbr_spinor oddBit 0 dslash_type i := by
  have h := (siteLoop_dagger env fatlink longlink ghostFatlink ghostLonglink spinorField
    fwd_nbr_spinor back_nbr_spinor oddBit dslash_type
    (forRange (env.Vh * env.stag_spinor_site_size) (fun i r => Function.update r i 0) res)
    env.Vh i).1 (by rw [Nat.mul_comm]; exact hi)
  unfold staggeredDslashReference
  exact ⟨h, by rw [h, neg_neg]⟩

/-- On an input of the gauge precision, single or double, and an even or odd
`oddBit`, `staggeredDslash` runs the reference stencil on the data of `out`. -/
theorem staggeredDslash_ok (env : HostEnv K) (out : ColorSpinorField (Nat → K))
    (fat_link long_link : GaugeField K) (inp : ColorSpinorField (Nat → K))
    (parity other : QudaParity) (daggerBit : Int) (dslash_type : QudaDslashType)
    (hother : otherParity parity = some other)
    (hin : inp.precision = fat_link.precision)
    (hfloat : inp.precision = QudaPrecision.QUDA_DOUBLE_PRECISION
      ∨ inp.precision = QudaPrecision.QUDA_SINGLE_PRECISION) :
    ∃ res, staggeredDslash env out fat_link long_link inp parity.toInt daggerBit dslash_type = .ok res ∧
      res.precision = out.precision := by
  have hf : fat_link.precision = QudaPrecision.QUDA_DOUBLE_PRECISION
      ∨ fat_link.precision = QudaPrecision.QUDA_SINGLE_PRECISION := hin ▸ hfloat
  unfold staggeredDslash
  unfold otherParity at hother
  rcases parity with _ | _ | _
  · simp only [hin, ne_eq, not_true_eq_false, if_false, QudaParity.toInt, if_true, hf]
    exact ⟨_, rfl, rfl⟩
  · simp only [hin, ne_eq, not_true_eq_false, if_false, QudaParity.toInt, one_ne_zero, if_true, hf]
    exact ⟨_, rfl, rfl⟩
  · simp at hother

/-- C10 (amended). Squared operator: for `in` and `tmp` of the gauge
precision (single or double), every mass, dagger bit and parity in
`{even, odd}`, `staggeredMatDagMat` first applies `staggeredDslash` to `in`
with the opposite parity as target (into `tmp`), then applies `staggeredDslash`
to `tmp` with the requested parity as target (into `out`), and finally combines
input and double application through `axmy` with the coefficient
`msq_x4 = 4 * mass^2`: on the `Vh * stag_spinor_site_size` components
`out[i] = axmyOp(in[i], 4 * mass^2, DD[i])`. Read as the subtraction of the
scaled input this is `DD - 4 * mass^2 * in`; read by the name of the helper
(`a*x - y`) it is `4 * mass^2 * in - DD`. -/
theorem staggeredMatDagMat_spec (env : HostEnv K) (out : ColorSpinorField (Nat → K))
    (fat_link long_link : GaugeField K) (inp : ColorSpinorField (Nat → K)) (mass : K)
    (dagger_bit : Int) (tmp : ColorSpinorField (Nat → K)) (parity : QudaParity)
    (dslash_type : QudaDslashType)
    (hpar : parity = QudaParity.QUDA_EVEN_PARITY ∨ parity = QudaParity.QUDA_ODD_PARITY)
    (hin : inp.precision = fat_link.precision) (htmp : tmp.precision = fat_link.precision)
    (hfloat : inp.precision = QudaPrecision.QUDA_DOUBLE_PRECISION
      ∨ inp.precision = QudaPrecision.QUDA_SINGLE_PRECISION) :
    ∃ other tmp1 out1 res,
      otherParity parity = some other ∧ other ≠ parity ∧
      staggeredDslash env tmp fat_link long_link inp other.toInt dagger_bit dslash_type = .ok tmp1 ∧
      staggeredDslash env out fat_link long_link tmp1 parity.toInt dagger_bit dslash_type = .ok out1 ∧
      staggeredMatDagMat env out fat_link long_link inp mass dagger_bit tmp parity dslash_type
        = .ok (res, tmp1) ∧
      (∀ i, i < env.Vh * env.stag_spinor_site_size →
        res.v i = env.axmyOp (inp.v i) (mass * mass * 4) (out1.v i)) ∧
      ((∀ x a y, env.axmyOp x a y = y - a * x) → ∀ i, i < env.Vh * env.stag_spinor_site_size →
        res.v i = out1.v i - 4 * (mass * mass) * inp.v i) ∧
      ((∀ x a y, env.axmyOp x a y = a * x - y) → ∀ i, i < env.Vh * env.stag_spinor_site_size →
        res.v i = 4 * (mass * mass) * inp.v i - out1.v i) := by
  obtain ⟨other, hother, hne, hback⟩ : ∃ other, otherParity parity = some other ∧ other ≠ parity ∧
      otherParity other = some parity := by
    rcases hpar with rfl | rfl
    · exact ⟨QudaParity.QUDA_ODD_PARITY, by decide, by decide, by decide⟩
    · exact ⟨QudaParity.QUDA_EVEN_PARITY, by decide, by decide, by decide⟩
  obtain ⟨tmp1, h1, hp1⟩ := staggeredDslash_ok env tmp fat_link long_link inp other parity
    dagger_bit dslash_type hback hin hfloat
  obtain ⟨out1, h2, _⟩ := staggeredDslash_ok env out fat_link long_link tmp1 parity other
    dagger_bit dslash_type hother (hp1.trans htmp)
    (by rw [hp1, htmp, ← hin]; exact hfloat)
  have hres : ∀ i, i < env.Vh * env.stag_spinor_site_size →
      (out1.setData (axmy env inp.v (mass * mass * 4) out1.v
        (env.Vh * env.stag_spinor_site_size))).v i
        = env.axmyOp (inp.v i) (mass * mass * 4) (out1.v i) := by
    intro i hi
    simp [ColorSpinorField.setData, axmy, hi]
  refine ⟨other, tmp1, out1, _, hother, hne, h1, h2, ?_, hres, ?_, ?_⟩
  · unfold staggeredMatDagMat
    simp only [hin, ne_eq, not_true_eq_false, if_false, hother, h1, h2]
  · intro hop i hi
    rw [hres i hi, hop]
    ring
  · intro hop i hi
    rw [hres i hi, hop]
    ring

end StaggeredTheorems

/-! ## Runs of the staggered reference operator on the sample data -/

section StaggeredRuns

/-- The dagger relation at component 1 of the sample lattice. -/
theorem staggeredDslashReference_dagger_witness :
    1 < (sampleHostEnv axmyScaledMinus).Vh * (sampleHostEnv axmyScaledMinus).stag_spinor_site_size ∧
    staggeredDslashReference (sampleHostEnv axmyScaledMinus) (fun _ => 9) sampleGauge.gauge
        sampleGauge.gauge sampleGauge.ghost sampleGauge.ghost (fun _ => 1) (fun _ _ => 0)
        (fun _ _ => 0) 0 1 QudaDslashType.QUDA_ASQTAD_DSLASH 1
      = -staggeredDslashReference (sampleHostEnv axmyScaledMinus) (fun _ => 9) sampleGauge.gauge
        sampleGauge.gauge sampleGauge.ghost sampleGauge.ghost (fun _ => 1) (fun _ _ => 0)
        (fun _ _ => 0) 0 0 QudaDslashType.QUDA_ASQTAD_DSLASH 1 :=
  ⟨by decide,
    (staggeredDslashReference_dagger (sampleHostEnv axmyScaledMinus) (fun _ => 9) sampleGauge.gauge
      sampleGauge.gauge sampleGauge.ghost sampleGauge.ghost (fun _ => 1) (fun _ _ => 0)
      (fun _ _ => 0) 0 QudaDslashType.QUDA_ASQTAD_DSLASH 1 (by decide)).1⟩

/-- On the sample lattice (unit links, Laplace action, `in = 1`, `mass = 1`) the
double application is `64` at component 0, so the claimed output is
`64 - 1 = 63`; the code returns `64 - 4 = 60` when `axmy` subtracts the scaled
input and `4 - 64 = -60` when it computes `a*x - y`: under either reading the
output is not the double application minus `mass^2` times the input. -/
theorem staggeredMatDagMat_counterexample :
    claimedAt (staggeredMatDagMatClaimed (sampleHostEnv axmySubtractScaled) (sampleHostField 9)
        sampleGauge sampleGauge (sampleHostField 1) 1 0 (sampleHostField 9)
        QudaParity.QUDA_EVEN_PARITY QudaDslashType.QUDA_LAPLACE_DSLASH) 0 = some 63 ∧
    outputAt (staggeredMatDagMat (sampleHostEnv axmySubtractScaled) (sampleHostField 9)
        sampleGauge sampleGauge (sampleHostField 1) 1 0 (sampleHostField 9)
        QudaParity.QUDA_EVEN_PARITY QudaDslashType.QUDA_LAPLACE_DSLASH) 0 = some 60 ∧
    claimedAt (staggeredMatDagMatClaimed (sampleHostEnv axmyScaledMinus) (sampleHostField 9)
        sampleGauge sampleGauge (sampleHostField 1) 1 0 (sampleHostField 9)
        QudaParity.QUDA_EVEN_PARITY QudaDslashType.QUDA_LAPLACE_DSLASH) 0 = some 63 ∧
    outputAt (staggeredMatDagMat (sampleHostEnv axmyScaledMinus) (sampleHostField 9)
        sampleGauge sampleGauge (sampleHostField 1) 1 0 (sampleHostField 9)
        QudaParity.QUDA_EVEN_PARITY QudaDslashType.QUDA_LAPLACE_DSLASH) 0 = some (-60) := by
  decide

/-- The squared operator on the sample lattice: the hypotheses of the amended
statement hold and the call returns an output field. -/
theorem staggeredMatDagMat_spec_witness :
    (sampleHostField 1).precision = sampleGauge.precision ∧
    (sampleHostField 9).precision = sampleGauge.precision ∧
    (outputAt (staggeredMatDagMat (sampleHostEnv axmySubtractScaled) (sampleHostField 9) sampleGauge
        sampleGauge (sampleHostField 1) 1 0 (sampleHostField 9) QudaParity.QUDA_EVEN_PARITY
        QudaDslashType.QUDA_LAPLACE_DSLASH) 0).isSome = true := by
  obtain ⟨_, tmp1, _, res, _, _, _, _, h, _⟩ :=
    staggeredMatDagMat_spec (sampleHostEnv axmySubtractScaled) (sampleHostField 9) sampleGauge
      sampleGauge (sampleHostField 1) 1 0 (sampleHostField 9) QudaParity.QUDA_EVEN_PARITY
      QudaDslashType.QUDA_LAPLACE_DSLASH (Or.inl rfl) (by decide) (by decide) (Or.inl (by decide))
  refine ⟨by decide, by decide, ?_⟩
  rw [h]
  rfl

end StaggeredRuns

/-! ## Termination of the outer loop -/

section Termination

variable {K V R : Type} [CommRing K] [AddCommGroup V] [Module K V] [LinearOrder R] [Zero R]

end Termination

/-! ## Iteration counts on the sample data -/

section TerminationRuns

open QudaVerbosity

end TerminationRuns

/-! ## Formation of the Gram system -/

section GramTheorems

variable {K V R : Type} [CommRing K] [AddCommGroup V] [Module K V] [LinearOrder R] [Zero R]

/-- A loop appending `g i` in pass `i` builds the list of the `g i`. -/
theorem forRange_append_eq_map {α : Type} (g : Nat → α) (n : Nat) :
    forRange n (fun i l => l ++ [g i]) [] = (List.range n).map g := by
  induction n with
  | zero => rfl
  | succ n ih => rw [forRange_succ, ih, List.range_succ, List.map_append, List.map_singleton]

/-- Entry `i * m + j` of a flat row-major buffer whose rows all have length `m`. -/
theorem flatMap_getElem? {α β : Type} (f : α → List β) (m : Nat) (S : List α)
    (hf : ∀ s, (f s).length = m) (i j : Nat) (hi : i < S.length) (hj : j < m) :
    (S.flatMap f)[i * m + j]? = (f (S.get ⟨i, hi⟩))[j]? := by
  induction S generalizing i with
  | nil => exact absurd hi (by simp)
  | cons s S ih =>
    rw [List.flatMap_cons]
    cases i with
    | zero =>
      rw [Nat.zero_mul, Nat.zero_add, List.getElem?_append_left (by rw [hf]; exact hj)]
      rfl
    | succ i =>
      have hlen : (f s).length ≤ (i + 1) * m + j := by
        rw [hf, Nat.succ_mul]
        omega
      rw [List.getElem?_append_right hlen, hf]
      have : (i + 1) * m + j - m = i * m + j := by
        rw [Nat.succ_mul]
        omega
      rw [this, ih i (by simpa using hi)]
      rfl

/-- Reading a list at a valid index, with a default. -/
theorem getD_eq_get {α : Type} (l : List α) (d : α) (i : Nat) (hi : i < l.length) :
    l.getD i d = l.get ⟨i, hi⟩ := by
  rw [List.getD_eq_getElem?_getD, List.getElem?_eq_getElem hi]
  rfl

/-- Entry `(i, j)` of the buffer written by `cDotProduct`. -/
theorem cDotProduct_getD (c : Collab K V R) (S T : List (ColorSpinorField V)) (i j : Nat)
    (hi : i < S.length) (hj : j < T.length) :
    (cDotProduct c S T).getD (i * T.length + j) 0
      = c.cDot (S.getD i default).v (T.getD j default).v := by
  unfold cDotProduct
  rw [List.getD_eq_getElem?_getD,
    flatMap_getElem? (fun s => T.map fun t => c.cDot s.v t.v) T.length S (fun s => by simp) i j hi hj,
    List.getElem?_map, List.getElem?_eq_getElem hj, getD_eq_get S default i hi,
    getD_eq_get T default j hj]
  rfl

/-- Entry `(i, j)` of the buffer written by `hDotProduct`. -/
theorem hDotProduct_getD (c : Collab K V R) (conj : K → K) (S T : List (ColorSpinorField V))
    (i j : Nat) (hi : i < S.length) (hj : j < T.length) :
    (hDotProduct c conj S T).getD (i * T.length + j) 0
      = if i ≤ j then c.cDot (S.getD i default).v (T.getD j default).v
        else conj (c.cDot (S.getD j default).v (T.getD i default).v) := by
  unfold hDotProduct
  rw [List.getD_eq_getElem?_getD,
    flatMap_getElem? _ T.length (List.range S.length) (fun s => by simp) i j (by simpa using hi) hj,
    List.getElem?_map, List.getElem?_range hj]
  simp

/-- The list `Q` of `CAGCR::solve`: the `N` fields of `q` followed by `b`. -/
theorem solve_Q (q : List (ColorSpinorField V)) (b : ColorSpinorField V) (N : Nat)
    (hq : q.length = N) :
    forRange N (fun i l => l ++ [q.getD i default]) [] ++ [b] = q ++ [b] := by
  rw [forRange_append_eq_map]
  congr 1
  apply List.ext_getElem?
  intro j
  by_cases hj : j < N
  · rw [List.getElem?_map, List.getElem?_range hj, List.getElem?_eq_getElem (by rw [hq]; exact hj)]
    simp [List.getElem?_eq_getElem (show j < q.length by rw [hq]; exact hj)]
  · rw [List.getElem?_eq_none (by simpa using hj), List.getElem?_eq_none (by rw [hq]; omega)]

/-- The dense system handed to the LU solve by `CAGCR::solve` is the one of the
single-reduction path. -/
theorem CAGCR.solve_alpha (c : Collab K V R) (s : CAGCR K V R) (b : ColorSpinorField V) :
    (s.solve c b).alpha = forRange s.p.length (fun i a => a.set i
      (c.luSolve s.p.length (gramSingleReduction c s.p s.q b).1
        (gramSingleReduction c s.p s.q b).2 i)) s.alpha := rfl

/-- The matrix of the single-reduction path holds the inner products of the `q[i]`. -/
theorem gramSingleReduction_A (c : Collab K V R) (p q : List (ColorSpinorField V))
    (b : ColorSpinorField V) (N : Nat) (hp : p.length = N) (hq : q.length = N)
    (i j : Nat) (hi : i < N) (hj : j < N) :
    (gramSingleReduction c p q b).1 i j = c.cDot (q.getD i default).v (q.getD j default).v := by
  have hQlen : (q ++ [b]).length = N + 1 := by simp [hq]
  unfold gramSingleReduction
  dsimp only
  rw [hp, solve_Q q b N hq, ← hQlen,
    cDotProduct_getD c q (q ++ [b]) i j (by rw [hq]; exact hi) (by rw [hQlen]; omega)]
  congr 2
  simp [List.getElem?_append_left (show j < q.length by rw [hq]; exact hj)]

/-- The right-hand side of the single-reduction path holds the inner products
of the `q[i]` with `b`. -/
theorem gramSingleReduction_phi (c : Collab K V R) (p q : List (ColorSpinorField V))
    (b : ColorSpinorField V) (N : Nat) (hp : p.length = N) (hq : q.length = N)
    (i : Nat) (hi : i < N) :
    (gramSingleReduction c p q b).2 i = c.cDot (q.getD i default).v b.v := by
  have hQlen : (q ++ [b]).length = N + 1 := by simp [hq]
  unfold gramSingleReduction
  dsimp only
  rw [hp, solve_Q q b N hq]
  have := cDotProduct_getD c q (q ++ [b]) i N (by rw [hq]; exact hi) (by rw [hQlen]; omega)
  rw [hQlen] at this
  rw [this]
  congr 2
  simp [List.getElem?_append_right (show q.length ≤ N by rw [hq]), hq]

/-- C11. Gram-system formation: for every `N`, `p` and `q` of length `N`, a
residual direction `b` and an inner product that is conjugate-symmetric
(`(u, v) = conj (v, u)`), the single-reduction path of `CAGCR::solve` (the one
whose `A`, `phi` reach the LU solve) gives `A(i,j) = (q[i], q[j])` and
`phi(i) = (q[i], b)` for all `i, j < N`, and the two-reduction path gives
entry for entry the same `A` and `phi`. -/
theorem gram_paths_agree (c : Collab K V R) (conj : K → K) (p q : List (ColorSpinorField V))
    (b : ColorSpinorField V) (N : Nat) (hp : p.length = N) (hq : q.length = N)
    (hherm : ∀ u v, c.cDot u v = conj (c.cDot v u)) :
    (∀ i j, i < N → j < N →
      (gramSingleReduction c p q b).1 i j = c.cDot (q.getD i default).v (q.getD j default).v) ∧
    (∀ i, i < N → (gramSingleReduction c p q b).2 i = c.cDot (q.getD i default).v b.v) ∧
    (∀ i j, i < N → j < N →
      (gramTwoReductions c conj p q b).1 i j = (gramSingleReduction c p q b).1 i j) ∧
    (∀ i, i < N → (gramTwoReductions c conj p q b).2 i = (gramSingleReduction c p q b).2 i) ∧
    (∀ s : CAGCR K V R, s.p = p → s.q = q → (s.solve c b).alpha
      = forRange N (fun i a => a.set i (c.luSolve N (gramSingleReduction c p q b).1
          (gramSingleReduction c p q b).2 i)) s.alpha) := by
  have hA := fun i j hi hj => gramSingleReduction_A c p q b N hp hq i j hi hj
  have hphi := fun i hi => gramSingleReduction_phi c p q b N hp hq i hi
  refine ⟨hA, hphi, fun i j hi hj => ?_, fun i hi => ?_, fun s hsp hsq => ?_⟩
  · rw [hA i j hi hj]
    unfold gramTwoReductions
    dsimp only
    have := hDotProduct_getD c conj q q i j (by rw [hq]; exact hi) (by rw [hq]; exact hj)
    rw [hq] at this
    rw [hp, this]
    split_ifs
    · rfl
    · exact (hherm _ _).symm
  · rw [hphi i hi]
    unfold gramTwoReductions
    dsimp only
    have := cDotProduct_getD c q [b] i 0 (by rw [hq]; exact hi) (by simp)
    simp only [List.length_singleton, Nat.mul_one, Nat.add_zero] at this
    rw [this]
    simp
  · rw [CAGCR.solve_alpha, hsp, hsq, hp]

end GramTheorems

/-! ## The Gram system on the sample data -/

section GramRuns

/-- The two paths on two sample fields `q = [2, 3]` and `b = 5`: the entry
below the diagonal is `(q[1], q[0]) = 6` on both, and `phi(1) = 15`. -/
theorem gram_paths_agree_witness :
    [sampleField 1, sampleField 2].length = 2 ∧ [sampleField 2, sampleField 3].length = 2 ∧
    (gramSingleReduction (sampleCollab 0) [sampleField 1, sampleField 2]
        [sampleField 2, sampleField 3] (sampleField 5)).1 1 0 = 6 ∧
    (gramTwoReductions (sampleCollab 0) id [sampleField 1, sampleField 2]
        [sampleField 2, sampleField 3] (sampleField 5)).1 1 0
      = (gramSingleReduction (sampleCollab 0) [sampleField 1, sampleField 2]
        [sampleField 2, sampleField 3] (sampleField 5)).1 1 0 ∧
    (gramTwoReductions (sampleCollab 0) id [sampleField 1, sampleField 2]
        [sampleField 2, sampleField 3] (sampleField 5)).2 1 = 15 :=
  ⟨by decide, by decide, by decide,
    (gram_paths_agree (sampleCollab 0) id [sampleField 1, sampleField 2]
      [sampleField 2, sampleField 3] (sampleField 5) 2 (by decide) (by decide)
      (fun u v => Int.mul_comm u v)).2.2.1 1 0 (by decide) (by decide),
    by decide⟩

end GramRuns

/-! ## The minimal-residual step -/

section MinimalResidual

variable {K V R : Type} [CommRing K] [AddCommGroup V] [Module K V] [LinearOrderedAddCommGroup R]

end MinimalResidual

/-! ## The minimal-residual step on the sample data -/

section MinimalResidualRuns

open QudaVerbosity

end MinimalResidualRuns
end quda
